import Mathlib

set_option maxRecDepth 100000

/-!
Verification development for the image-preview proxy of the portfolio
repository.  The repository ships two variants of the proxy route handler:

* the strict variant (`src/app/api/postimg/route.ts`): JSON error bodies,
  a single outbound fetch guarded by an 8-second abort timer and a
  `Promise.race` against the inbound abort signal;
* the always-an-image variant (`src/unnamed/part_000`, lines 1-123):
  SVG placeholder responses, a 24h in-process cache, and a two-attempt
  fetch loop with a fixed 150ms backoff.

Both share `extractOgImage` and `isAbortLikeError` verbatim.  The
development embeds those functions and both `GET` handlers as executable
Lean functions over an explicit environment (query parameter, URL-parse
oracle, abort flag, per-attempt fetch outcomes, cache contents, clock
readings), together with the ordered list of observable effects each run
performs (outbound fetch calls, backoff sleeps, timer registration,
abort-listener registration, cache reads and writes).
-/

/-! ## The og:image extractor

`extractOgImage` in both variants is

  html.match(re1) ?? html.match(re2), returning capture group 1,

with re1 = property=["']og:image["'][^>]*content=["']([^"']+)["'] (flag i)
and  re2 = content=["']([^"']+)["'][^>]*property=["']og:image["'] (flag i).

The embedding implements exactly the backtracking search these two
regexes perform on a list of characters: `scanStarts` tries match start
positions left to right (JS `String.match` returns the leftmost match),
`gapScan` gives the greedy longest-first semantics of `[^>]*`, and the
capture `([^"']+)` is the maximal run of non-quote characters (greedy,
and no shorter run can be followed by the required closing quote, so the
maximal run is the only candidate).  Case-insensitivity of the literals
is `Char.toLower` on both sides (ASCII case folding). -/

def isQuoteChar (c : Char) : Bool := c == '"' || c == '\''

def lcEq (a b : Char) : Bool := a.toLower == b.toLower

/-- Match a literal case-insensitively at the head of the input,
returning the remainder. -/
def matchLitCI : List Char → List Char → Option (List Char)
  | [], s => some s
  | _ :: _, [] => none
  | p :: ps, c :: cs => if lcEq p c then matchLitCI ps cs else none

/-- Match one character of the class `["']`, returning the remainder. -/
def matchQuote : List Char → Option (List Char)
  | [] => none
  | c :: cs => if isQuoteChar c then some cs else none

/-- The part of regex 1 after `[^>]*`: `content=["']([^"']+)["']`,
returning the capture (the maximal non-quote run after the opening
quote, which must be non-empty and followed by a closing quote). -/
def tail1 (s : List Char) : Option (List Char) :=
  (matchLitCI "content=".data s).bind fun s1 =>
    (matchQuote s1).bind fun s2 =>
      if s2.takeWhile (fun c => !isQuoteChar c) = [] then none
      else
        (matchQuote (s2.dropWhile (fun c => !isQuoteChar c))).map fun _ =>
          s2.takeWhile (fun c => !isQuoteChar c)

/-- Greedy `[^>]*` followed by a continuation: consume as many
non-`'>'` characters as possible, backtracking one character at a time,
i.e. the continuation is tried at the rightmost feasible position
first. -/
def gapScan (tail : List Char → Option (List Char)) : List Char → Option (List Char)
  | [] => tail []
  | c :: cs =>
    if c = '>' then tail (c :: cs)
    else
      match gapScan tail cs with
      | some r => some r
      | none => tail (c :: cs)

/-- Regex 1 anchored at the current position:
`property=["']og:image["'][^>]*content=["']([^"']+)["']`. -/
def pat1At (s : List Char) : Option (List Char) :=
  (matchLitCI "property=".data s).bind fun s1 =>
    (matchQuote s1).bind fun s2 =>
      (matchLitCI "og:image".data s2).bind fun s3 =>
        (matchQuote s3).bind fun s4 => gapScan tail1 s4

/-- The part of regex 2 after `[^>]*`: `property=["']og:image["']`;
the capture was already determined earlier, so it is threaded through. -/
def tail2 (cap : List Char) (s : List Char) : Option (List Char) :=
  (matchLitCI "property=".data s).bind fun s1 =>
    (matchQuote s1).bind fun s2 =>
      (matchLitCI "og:image".data s2).bind fun s3 =>
        (matchQuote s3).map fun _ => cap

/-- Regex 2 anchored at the current position:
`content=["']([^"']+)["'][^>]*property=["']og:image["']`. -/
def pat2At (s : List Char) : Option (List Char) :=
  (matchLitCI "content=".data s).bind fun s1 =>
    (matchQuote s1).bind fun s2 =>
      if s2.takeWhile (fun c => !isQuoteChar c) = [] then none
      else
        (matchQuote (s2.dropWhile (fun c => !isQuoteChar c))).bind fun s3 =>
          gapScan (tail2 (s2.takeWhile (fun c => !isQuoteChar c))) s3

/-- Leftmost-match search: try the anchored matcher at every start
position from left to right (the semantics of `String.prototype.match`
with a non-global regex). -/
def scanStarts (m : List Char → Option (List Char)) : List Char → Option (List Char)
  | [] => m []
  | c :: cs =>
    match m (c :: cs) with
    | some r => some r
    | none => scanStarts m cs

/-- `extractOgImage` from both route variants: first regex, and if it
has no match, the second (`??` in the source); the result is capture
group 1. -/
def extractOgImage (html : String) : Option String :=
  match scanStarts pat1At html.data with
  | some r => some (List.asString r)
  | none => (scanStarts pat2At html.data).map List.asString

/-! ## The meta-tag pattern, stated from the spec

The spec describes the extractable shape as a meta-tag-like pattern
carrying `property="og:image"` and `content="X"`, in either attribute
order, with single or double quotes, case-insensitively.  `ogPat1` is
the `property`-before-`content` order, `ogPat2` the reverse; the gap
between the two attributes stays inside the tag (no `'>'`), matching
`[^>]*`, and the content value is a non-empty run without quote
characters, matching `([^"']+)`. -/

def ciStr (s : List Char) (lit : String) : Prop :=
  s.map Char.toLower = lit.data.map Char.toLower

def noGt (gap : List Char) : Prop := ∀ c ∈ gap, c ≠ '>'

def okCap (X : List Char) : Prop := X ≠ [] ∧ ∀ c ∈ X, isQuoteChar c = false

def ogPat1 (html X : List Char) : Prop :=
  ∃ pre lp q1 lo q2 gap lc q3 q4 post,
    html = pre ++ (lp ++ (q1 :: (lo ++ (q2 :: (gap ++ (lc ++ (q3 :: (X ++ (q4 :: post))))))))) ∧
    ciStr lp "property=" ∧ isQuoteChar q1 = true ∧ ciStr lo "og:image" ∧
    isQuoteChar q2 = true ∧ noGt gap ∧ ciStr lc "content=" ∧
    isQuoteChar q3 = true ∧ okCap X ∧ isQuoteChar q4 = true

def ogPat2 (html X : List Char) : Prop :=
  ∃ pre lc q1 q2 gap lp q3 lo q4 post,
    html = pre ++ (lc ++ (q1 :: (X ++ (q2 :: (gap ++ (lp ++ (q3 :: (lo ++ (q4 :: post))))))))) ∧
    ciStr lc "content=" ∧ isQuoteChar q1 = true ∧ okCap X ∧
    isQuoteChar q2 = true ∧ noGt gap ∧ ciStr lp "property=" ∧
    isQuoteChar q3 = true ∧ ciStr lo "og:image" ∧ isQuoteChar q4 = true

def ogPat (html X : List Char) : Prop := ogPat1 html X ∨ ogPat2 html X

instance (s : List Char) (lit : String) : Decidable (ciStr s lit) := by
  unfold ciStr
  infer_instance

instance (gap : List Char) : Decidable (noGt gap) := by
  unfold noGt
  exact List.decidableBAll _ _

instance (X : List Char) : Decidable (okCap X) := by
  unfold okCap
  infer_instance

/-! ## Error values and `isAbortLikeError`

A JavaScript error value is modelled by the fields `isAbortLikeError`
inspects: `name`, `message`, `code`, and an optional wrapped `cause`
with its own `code`/`name`/`message`.  A missing field is `none`
(matching `undefined`); the falsy guard `if (!err) return false` is the
`none` case of the `Option JsError` argument. -/

structure ErrCause where
  code : Option String
  name : Option String
  message : Option String
deriving DecidableEq

structure JsError where
  name : Option String
  message : Option String
  code : Option String
  cause : Option ErrCause
deriving DecidableEq

/-- Substring test: does "aborted" occur in the list (JS `includes`)? -/
def containsAborted : List Char → Bool
  | [] => "aborted".data.isPrefixOf []
  | c :: t => "aborted".data.isPrefixOf (c :: t) || containsAborted t

/-- JS `m.toLowerCase().includes("aborted")` (ASCII case folding). -/
def includesAborted (m : String) : Bool :=
  containsAborted (m.data.map Char.toLower)

/-- `isAbortLikeError` from both route variants, disjunct for disjunct:
abort-style name, connection-reset code, undici-aborted code, a message
whose lowercase form contains "aborted", and the same four checks on the
wrapped `cause`.  `m?.toLowerCase().includes(..) === true` is false when
the field is absent, hence `Option.getD false`. -/
def isAbortLikeError : Option JsError → Bool
  | none => false
  | some e =>
    e.name == some "AbortError" ||
    e.code == some "ECONNRESET" ||
    e.code == some "UND_ERR_ABORTED" ||
    (e.message.map includesAborted).getD false ||
    (e.cause.bind ErrCause.code) == some "ECONNRESET" ||
    (e.cause.bind ErrCause.code) == some "UND_ERR_ABORTED" ||
    (e.cause.bind ErrCause.name) == some "AbortError" ||
    ((e.cause.bind ErrCause.message).map includesAborted).getD false

/-! ## Responses, effects and the request environment -/

/-- The cache entry type of the always-an-image variant:
`type CacheEntry = { img: string; ts: number }`. -/
structure CacheEntry where
  img : String
  ts : Int
deriving DecidableEq

/-- `CACHE_TTL_MS = 1000 * 60 * 60 * 24` (24h). -/
def CACHE_TTL_MS : Int := 1000 * 60 * 60 * 24

deriving instance DecidableEq for Except

/-- An upstream fetch resolution: the `ok` flag of the HTTP response and
the outcome of reading its body with `res.text()` (which can itself
reject). -/
structure FetchRes where
  ok : Bool
  text : Except JsError String
deriving DecidableEq

/-- The hostname and the `toString()` normalization of a parsed URL; a
URL-parse oracle `String → Option UrlParts` stands for the platform's
`new URL`, with `none` for a parse failure (thrown `TypeError`). -/
structure UrlParts where
  hostname : String
  norm : String
deriving DecidableEq

/-- Observable responses.  `json s e` is `NextResponse.json({error: e},
{status: s})`; `empty 204` is `new NextResponse(null, {status: 204})`;
`redirect loc s` is a redirect whose Location is the validated,
normalized URL; `svg 200 body` is the always-an-image fallback (body is
the generated SVG markup; its content-type header `image/svg+xml` and
`cache-control: public, max-age=300` are fixed and not modelled
separately). -/
inductive Response where
  | json (status : Nat) (error : String)
  | empty (status : Nat)
  | redirect (location : String) (status : Nat)
  | svg (status : Nat) (body : String)
deriving DecidableEq

/-- Observable effects of a handler run, in program order. -/
inductive Effect where
  | fetchCall (url : String)
  | sleep (ms : Nat)
  | setTimer (ms : Nat)
  | clearTimer
  | addAbortListener
  | removeAbortListener
  | cacheGet (key : String)
  | cacheSet (key : String) (entry : CacheEntry)
deriving DecidableEq

/-- `svgPlaceholder` from the always-an-image variant (the label is
interpolated into the `<text>` element). -/
def svgPlaceholder (label : String) : String :=
  "<?xml version=\"1.0\" encoding=\"UTF-8\"?>\n<svg xmlns=\"http://www.w3.org/2000/svg\" width=\"1200\" height=\"700\">\n  <rect width=\"100%\" height=\"100%\" fill=\"#0b1220\"/>\n  <text x=\"50%\" y=\"50%\" fill=\"#67e8f9\" font-family=\"Arial\" font-size=\"28\" text-anchor=\"middle\">"
    ++ label ++ "</text>\n</svg>"

/-- `imageFallbackResponse` from the always-an-image variant: a 200
response carrying the generated placeholder image. -/
def imageFallbackResponse (label : String) : Response :=
  Response.svg 200 (svgPlaceholder label)

/-- The error thrown by Next.js's `validateURL` (used by
`NextResponse.redirect`) when `new URL(url)` fails; its `cause` is the
underlying `TypeError`.  This is platform behavior of the `next`
dependency (`src/server/web/utils.ts`), not repository code: the
repository calls `NextResponse.redirect(img, 302)` with an arbitrary
extracted/cached string. -/
def nextMalformedError (url : String) : JsError :=
  ⟨some "Error",
   some ("URL is malformed \"" ++ url ++
     "\". Please use only absolute URLs - https://nextjs.org/docs/messages/middleware-relative-urls"),
   none,
   some ⟨none, some "TypeError", some "Invalid URL"⟩⟩

/-- `NextResponse.redirect(url, status)`: validates the URL with the
parse oracle (Next.js runs `new URL(url)` and throws on failure) and on
success emits a redirect to the normalized URL. -/
def nextRedirect (parseUrl : String → Option UrlParts) (url : String) (status : Nat) :
    Except JsError Response :=
  match parseUrl url with
  | some p => Except.ok (Response.redirect p.norm status)
  | none => Except.error (nextMalformedError url)

/-- The environment of one request: the `url` query parameter (`none`
when absent), the `new URL` oracle, whether the inbound signal is
already aborted when the handler checks it, the outcome of the k-th
outbound fetch of this run, the cache contents at entry (always-an-image
variant), and the `Date.now()` readings at the cache-freshness check
(`now0`) and at the cache store (`now1`). -/
structure Env where
  urlParam : Option String
  parseUrl : String → Option UrlParts
  aborted : Bool
  fetches : Nat → Except JsError FetchRes
  cache : String → Option CacheEntry
  now0 : Int
  now1 : Int

/-! ## The strict variant (`src/app/api/postimg/route.ts`)

The handler body after validation is an async IIFE (`work`) raced
against a promise that resolves to 204 when the inbound signal fires;
the race and the in-flight cancellation are visible here through the
fetch/read outcomes (an aborted fetch rejects with an abort-shaped
error).  `work` never throws: every failure is converted inside its
try/catch.  A body-read error that is not abort-like is rethrown and
caught by the outer catch, whose `isAbortLikeError` re-check fails for
the same error, producing the 500 response. -/

def strictWorkResp (env : Env) : Except JsError Response :=
  match env.fetches 0 with
  | Except.error e =>
    if isAbortLikeError (some e) then Except.ok (Response.empty 204)
    else Except.ok (Response.json 500 "Unexpected error fetching postimg")
  | Except.ok fr =>
    if fr.ok = false then Except.ok (Response.json 502 "Failed to fetch postimg page")
    else
      match fr.text with
      | Except.error e =>
        if isAbortLikeError (some e) then Except.ok (Response.empty 204)
        else Except.ok (Response.json 500 "Unexpected error fetching postimg")
      | Except.ok html =>
        match extractOgImage html with
        | none => Except.ok (Response.json 404 "No og:image found")
        | some img =>
          match nextRedirect env.parseUrl img 302 with
          | Except.ok r => Except.ok r
          | Except.error e =>
            if isAbortLikeError (some e) then Except.ok (Response.empty 204)
            else Except.ok (Response.json 500 "Unexpected error fetching postimg")

def strictWork (env : Env) (parsed : UrlParts) : Except JsError Response × List Effect :=
  (strictWorkResp env, [Effect.fetchCall parsed.norm])

/-- The strict variant's `GET`: missing/empty `url` → 400 "Missing url";
parse failure → 400 "Invalid url"; hostname other than `postimg.cc` →
400 "Only postimg.cc is allowed"; inbound signal already aborted → 204
(via `abortTo204`); otherwise register the abort listener, set the
8000ms abort timer, run `work` (one fetch, no retry) and clear the
timer in `finally`. -/
def strictGET (env : Env) : Except JsError Response × List Effect :=
  match env.urlParam with
  | none => (Except.ok (Response.json 400 "Missing url"), [])
  | some url =>
    if url = "" then (Except.ok (Response.json 400 "Missing url"), [])
    else
      match env.parseUrl url with
      | none => (Except.ok (Response.json 400 "Invalid url"), [])
      | some parsed =>
        if parsed.hostname ≠ "postimg.cc" then
          (Except.ok (Response.json 400 "Only postimg.cc is allowed"), [])
        else if env.aborted then (Except.ok (Response.empty 204), [])
        else
          ((strictWork env parsed).1,
            Effect.addAbortListener :: Effect.setTimer 8000 ::
              (strictWork env parsed).2 ++ [Effect.clearTimer])

/-! ## The always-an-image variant (`src/unnamed/part_000`, lines 60-123)

The fetch loop `for (attempt = 0; attempt < 2; attempt++)` is unrolled
into `alwaysAttempt0`/`alwaysAttempt1`.  In each attempt a fetch
rejection or a body-read rejection is caught by the inner catch:
abort-like → immediate cancelled placeholder; otherwise attempt 0
sleeps 150ms and retries, attempt 1 rethrows to the outer catch (whose
abort re-check fails for the same error, giving "Preview unavailable").
A non-ok response breaks out of the loop with `html` still null.  After
the loop: no html or no extracted image → "Preview unavailable";
otherwise the result is cached (`cache.set` runs before the redirect is
constructed) and `NextResponse.redirect(img, 302)` is returned — a
redirect-validation throw here is still inside the try and is caught by
the outer catch.  The cache-hit redirect in `alwaysGET`, by contrast,
is constructed before the try/catch, so its validation error escapes
the handler (an `Except.error` result). -/

def alwaysAfterExtract (env : Env) (key img : String) (effs : List Effect) :
    Except JsError Response × List Effect :=
  match nextRedirect env.parseUrl img 302 with
  | Except.ok r =>
    (Except.ok r,
      effs ++ [Effect.cacheSet key ⟨img, env.now1⟩, Effect.removeAbortListener])
  | Except.error e =>
    if isAbortLikeError (some e) then
      (Except.ok (imageFallbackResponse "Image request cancelled"),
        effs ++ [Effect.cacheSet key ⟨img, env.now1⟩, Effect.removeAbortListener])
    else
      (Except.ok (imageFallbackResponse "Preview unavailable"),
        effs ++ [Effect.cacheSet key ⟨img, env.now1⟩, Effect.removeAbortListener])

def alwaysAfterLoop (env : Env) (key : String) (html : Option String)
    (effs : List Effect) : Except JsError Response × List Effect :=
  match html with
  | none =>
    (Except.ok (imageFallbackResponse "Preview unavailable"),
      effs ++ [Effect.removeAbortListener])
  | some s =>
    match extractOgImage s with
    | none =>
      (Except.ok (imageFallbackResponse "Preview unavailable"),
        effs ++ [Effect.removeAbortListener])
    | some img => alwaysAfterExtract env key img effs

def alwaysAttempt1 (env : Env) (key : String) (effs : List Effect) :
    Except JsError Response × List Effect :=
  match env.fetches 1 with
  | Except.error e =>
    if isAbortLikeError (some e) then
      (Except.ok (imageFallbackResponse "Image request cancelled"),
        effs ++ [Effect.fetchCall key, Effect.removeAbortListener])
    else
      (Except.ok (imageFallbackResponse "Preview unavailable"),
        effs ++ [Effect.fetchCall key, Effect.removeAbortListener])
  | Except.ok fr =>
    if fr.ok = false then alwaysAfterLoop env key none (effs ++ [Effect.fetchCall key])
    else
      match fr.text with
      | Except.ok s => alwaysAfterLoop env key (some s) (effs ++ [Effect.fetchCall key])
      | Except.error e =>
        if isAbortLikeError (some e) then
          (Except.ok (imageFallbackResponse "Image request cancelled"),
            effs ++ [Effect.fetchCall key, Effect.removeAbortListener])
        else
          (Except.ok (imageFallbackResponse "Preview unavailable"),
            effs ++ [Effect.fetchCall key, Effect.removeAbortListener])

def alwaysAttempt0 (env : Env) (key : String) (effs : List Effect) :
    Except JsError Response × List Effect :=
  match env.fetches 0 with
  | Except.error e =>
    if isAbortLikeError (some e) then
      (Except.ok (imageFallbackResponse "Image request cancelled"),
        effs ++ [Effect.fetchCall key, Effect.removeAbortListener])
    else alwaysAttempt1 env key (effs ++ [Effect.fetchCall key, Effect.sleep 150])
  | Except.ok fr =>
    if fr.ok = false then alwaysAfterLoop env key none (effs ++ [Effect.fetchCall key])
    else
      match fr.text with
      | Except.ok s => alwaysAfterLoop env key (some s) (effs ++ [Effect.fetchCall key])
      | Except.error e =>
        if isAbortLikeError (some e) then
          (Except.ok (imageFallbackResponse "Image request cancelled"),
            effs ++ [Effect.fetchCall key, Effect.removeAbortListener])
        else alwaysAttempt1 env key (effs ++ [Effect.fetchCall key, Effect.sleep 150])

def alwaysStartPipeline (env : Env) (key : String) (effs : List Effect) :
    Except JsError Response × List Effect :=
  if env.aborted then
    (Except.ok (imageFallbackResponse "Image request cancelled"),
      effs ++ [Effect.addAbortListener, Effect.removeAbortListener])
  else alwaysAttempt0 env key (effs ++ [Effect.addAbortListener])

/-- The always-an-image variant's `GET`: missing/empty `url` → "Missing
image url" placeholder; parse failure → "Invalid image url"; hostname
other than `postimg.cc` → "Only postimg.cc is allowed"; then the cache
is consulted under `parsed.toString()` — a hit younger than
`CACHE_TTL_MS` returns `NextResponse.redirect(cached.img, 302)` outside
any try/catch (so its validation error escapes as `Except.error`);
otherwise the abort listener is registered and the fetch loop runs. -/
def alwaysGET (env : Env) : Except JsError Response × List Effect :=
  match env.urlParam with
  | none => (Except.ok (imageFallbackResponse "Missing image url"), [])
  | some url =>
    if url = "" then (Except.ok (imageFallbackResponse "Missing image url"), [])
    else
      match env.parseUrl url with
      | none => (Except.ok (imageFallbackResponse "Invalid image url"), [])
      | some parsed =>
        if parsed.hostname ≠ "postimg.cc" then
          (Except.ok (imageFallbackResponse "Only postimg.cc is allowed"), [])
        else
          match env.cache parsed.norm with
          | some c =>
            if env.now0 - c.ts < CACHE_TTL_MS then
              match nextRedirect env.parseUrl c.img 302 with
              | Except.ok r => (Except.ok r, [Effect.cacheGet parsed.norm])
              | Except.error e => (Except.error e, [Effect.cacheGet parsed.norm])
            else alwaysStartPipeline env parsed.norm [Effect.cacheGet parsed.norm]
          | none => alwaysStartPipeline env parsed.norm [Effect.cacheGet parsed.norm]

/-- Replay the cache writes of an effect list over an initial cache. -/
def applyEffects (cache : String → Option CacheEntry) :
    List Effect → (String → Option CacheEntry)
  | [] => cache
  | Effect.cacheSet k v :: rest =>
    applyEffects (fun q => if q = k then some v else cache q) rest
  | _ :: rest => applyEffects cache rest

/-- Whether an effect list contains an outbound fetch. -/
def hasFetchCall (effs : List Effect) : Bool :=
  effs.any fun e =>
    match e with
    | Effect.fetchCall _ => true
    | _ => false

/-- Count the outbound fetches of an effect list. -/
def countFetchCalls (effs : List Effect) : Nat :=
  effs.countP fun e =>
    match e with
    | Effect.fetchCall _ => true
    | _ => false

/-! ## Concrete fixtures for witnesses and counterexamples -/

/-- A test `new URL` oracle covering the URLs the fixtures use; every
other string (including relative URLs such as "/x.png") fails to
parse. -/
def testParse (s : String) : Option UrlParts :=
  if s = "https://postimg.cc/abc" then some ⟨"postimg.cc", "https://postimg.cc/abc"⟩
  else if s = "https://i.postimg.cc/x.jpg" then
    some ⟨"i.postimg.cc", "https://i.postimg.cc/x.jpg"⟩
  else if s = "https://evil.example.com/x" then
    some ⟨"evil.example.com", "https://evil.example.com/x"⟩
  else none

/-- A transient network failure that is not abort-shaped. -/
def transientErr : JsError := ⟨some "TypeError", some "fetch failed", none, none⟩

/-- A genuine abort error as fired by `AbortController`. -/
def abortErr : JsError :=
  ⟨some "AbortError", some "This operation was aborted", some "ABORT_ERR", none⟩

/-- A genuine upstream failure whose message merely mentions ABORTED. -/
def mentionsAbortedErr : JsError :=
  ⟨some "Error", some "Request ABORTED by upstream", none, none⟩

/-- Markup whose og:image is a valid absolute URL. -/
def goodHtml : String :=
  "<meta property=\"og:image\" content=\"https://i.postimg.cc/x.jpg\"/>"

/-- Markup whose og:image is a relative URL (fails redirect validation). -/
def badHtml : String :=
  "<meta property=\"og:image\" content=\"/x.png\"/>"

def emptyCache : String → Option CacheEntry := fun _ => none

def fetchesAlwaysOk (html : String) : Nat → Except JsError FetchRes :=
  fun _ => Except.ok ⟨true, Except.ok html⟩

def fetchesFailThenOk (e : JsError) (html : String) : Nat → Except JsError FetchRes :=
  fun k => if k = 0 then Except.error e else Except.ok ⟨true, Except.ok html⟩

def fetchesAlwaysErr (e : JsError) : Nat → Except JsError FetchRes :=
  fun _ => Except.error e

/-- Strict variant, transient first-attempt failure, second attempt
would succeed. -/
def envC1 : Env :=
  ⟨some "https://postimg.cc/abc", testParse, false,
    fetchesFailThenOk transientErr goodHtml, emptyCache, 0, 0⟩

/-- Always-an-image variant, two consecutive transient failures. -/
def envC1b : Env :=
  ⟨some "https://postimg.cc/abc", testParse, false,
    fetchesAlwaysErr transientErr, emptyCache, 0, 0⟩

/-- A successful always-an-image run (cache miss, good markup). -/
def envC2 : Env :=
  ⟨some "https://postimg.cc/abc", testParse, false,
    fetchesAlwaysOk goodHtml, emptyCache, 0, 0⟩

/-- A disallowed-host request. -/
def envC3 : Env :=
  ⟨some "https://evil.example.com/x", testParse, false,
    fetchesAlwaysOk goodHtml, emptyCache, 0, 0⟩

/-- A fresh cache hit whose cached image URL is a valid absolute URL. -/
def envC5 : Env :=
  ⟨some "https://postimg.cc/abc", testParse, false,
    fetchesAlwaysOk goodHtml,
    (fun k => if k = "https://postimg.cc/abc"
      then some ⟨"https://i.postimg.cc/x.jpg", 0⟩ else none),
    1000, 1000⟩

/-- A fresh cache hit whose cached image URL is relative. -/
def envC5bad : Env :=
  ⟨some "https://postimg.cc/abc", testParse, false,
    fetchesAlwaysOk goodHtml,
    (fun k => if k = "https://postimg.cc/abc" then some ⟨"/x.png", 0⟩ else none),
    1000, 1000⟩

/-- A stale cache entry (exactly 24h old) with a successful re-fetch. -/
def envC5stale : Env :=
  ⟨some "https://postimg.cc/abc", testParse, false,
    fetchesAlwaysOk goodHtml,
    (fun k => if k = "https://postimg.cc/abc"
      then some ⟨"https://i.postimg.cc/x.jpg", 0⟩ else none),
    CACHE_TTL_MS, CACHE_TTL_MS + 5⟩

/-- A request whose `url` parameter does not parse. -/
def envC6 : Env :=
  ⟨some "notaurl", testParse, false, fetchesAlwaysOk goodHtml, emptyCache, 0, 0⟩

/-- A request with no `url` parameter. -/
def envC6b : Env :=
  ⟨none, testParse, false, fetchesAlwaysOk goodHtml, emptyCache, 0, 0⟩

/-- First fetch rejects with a genuine abort error. -/
def envC7 : Env :=
  ⟨some "https://postimg.cc/abc", testParse, false,
    fetchesAlwaysErr abortErr, emptyCache, 0, 0⟩

/-- First fetch rejects with a failure that merely mentions ABORTED. -/
def envC9 : Env :=
  ⟨some "https://postimg.cc/abc", testParse, false,
    fetchesAlwaysErr mentionsAbortedErr, emptyCache, 0, 0⟩

/-- First request of the cache-poisoning scenario: upstream markup
carries a relative og:image URL. -/
def envC8a : Env :=
  ⟨some "https://postimg.cc/abc", testParse, false,
    fetchesAlwaysOk badHtml, emptyCache, 1000, 1000⟩

/-- Second request of the scenario: same URL, cache as left by the
first request, well within the 24h window. -/
def envC8b : Env :=
  ⟨some "https://postimg.cc/abc", testParse, false,
    fetchesAlwaysOk badHtml,
    applyEffects envC8a.cache (alwaysGET envC8a).2, 2000, 2000⟩

/-- Inbound signal already aborted, fresh cache hit with a valid cached
image URL. -/
def envC10 : Env :=
  ⟨some "https://postimg.cc/abc", testParse, true,
    fetchesAlwaysOk goodHtml,
    (fun k => if k = "https://postimg.cc/abc"
      then some ⟨"https://i.postimg.cc/x.jpg", 0⟩ else none),
    100, 100⟩

/-- Inbound signal already aborted, fresh cache hit with a relative
cached image URL. -/
def envC10bad : Env :=
  ⟨some "https://postimg.cc/abc", testParse, true,
    fetchesAlwaysOk goodHtml,
    (fun k => if k = "https://postimg.cc/abc" then some ⟨"/x.png", 0⟩ else none),
    100, 100⟩

/-- Counterexample markup for the extractor: it contains the og:image
pattern with content "B" (and another with content "A" earlier). -/
def c4html : String :=
  "property=\"og:image\" content=\"A\"><meta property=\"og:image\" content=\"B\">"

/-- Witness markup for the extractor: a unique og:image pattern. -/
def c4whtml : String :=
  "<meta property=\"og:image\" content=\"https://i.postimg.cc/x.jpg\"/>"

/-! ## Characterization of the matcher pieces -/

theorem lcEq_eq {a b : Char} (h : lcEq a b = true) : a.toLower = b.toLower := by
  simpa [lcEq] using h

theorem matchLitCI_some : ∀ (pat s r : List Char), matchLitCI pat s = some r →
    ∃ pre, s = pre ++ r ∧ pre.map Char.toLower = pat.map Char.toLower
  | [], s, r, h => by
    simp only [matchLitCI, Option.some.injEq] at h
    exact ⟨[], by simp [h]⟩
  | p :: ps, [], r, h => by simp [matchLitCI] at h
  | p :: ps, c :: cs, r, h => by
    by_cases hc : lcEq p c = true
    · simp only [matchLitCI, hc, if_true] at h
      obtain ⟨pre, hpre, hmap⟩ := matchLitCI_some ps cs r h
      exact ⟨c :: pre, by simp [hpre], by simp [hmap, lcEq_eq hc]⟩
    · simp [matchLitCI, hc] at h

theorem matchLitCI_complete : ∀ (pat pre r : List Char),
    pre.map Char.toLower = pat.map Char.toLower → matchLitCI pat (pre ++ r) = some r
  | [], pre, r, h => by
    have hp : pre = [] := by simpa using h
    simp [hp, matchLitCI]
  | p :: ps, [], r, h => by simp at h
  | p :: ps, c :: cs, r, h => by
    simp only [List.map_cons, List.cons.injEq] at h
    have : lcEq p c = true := by simp [lcEq, h.1]
    simp only [List.cons_append, matchLitCI, this, if_true]
    exact matchLitCI_complete ps cs r h.2

theorem matchQuote_some {s r : List Char} (h : matchQuote s = some r) :
    ∃ q, s = q :: r ∧ isQuoteChar q = true := by
  match s with
  | [] => simp [matchQuote] at h
  | c :: cs =>
    by_cases hc : isQuoteChar c = true
    · simp only [matchQuote, hc, if_true, Option.some.injEq] at h
      exact ⟨c, by simp [h], hc⟩
    · simp [matchQuote, hc] at h

theorem matchQuote_complete {q : Char} {r : List Char} (h : isQuoteChar q = true) :
    matchQuote (q :: r) = some r := by
  simp [matchQuote, h]

theorem takeWhile_nonquote : ∀ (X : List Char) (q : Char) (rest : List Char),
    (∀ c ∈ X, isQuoteChar c = false) → isQuoteChar q = true →
    (X ++ (q :: rest)).takeWhile (fun c => !isQuoteChar c) = X ∧
    (X ++ (q :: rest)).dropWhile (fun c => !isQuoteChar c) = q :: rest
  | [], q, rest, _, hq => by
    constructor <;> simp [List.takeWhile, List.dropWhile, hq]
  | x :: xs, q, rest, hX, hq => by
    have hx : isQuoteChar x = false := hX x (by simp)
    have ih := takeWhile_nonquote xs q rest (fun c hc => hX c (by simp [hc])) hq
    constructor
    · simpa [List.takeWhile, hx] using ih.1
    · simpa [List.dropWhile, hx] using ih.2

theorem tail1_some {s cap : List Char} (h : tail1 s = some cap) :
    ∃ lc q3 q4 rest, s = lc ++ (q3 :: (cap ++ (q4 :: rest))) ∧
      ciStr lc "content=" ∧ isQuoteChar q3 = true ∧ okCap cap ∧ isQuoteChar q4 = true := by
  unfold tail1 at h
  cases h1 : matchLitCI "content=".data s with
  | none => rw [h1] at h; simp at h
  | some s1 =>
    rw [h1] at h
    simp only [Option.some_bind] at h
    cases h2 : matchQuote s1 with
    | none => rw [h2] at h; simp at h
    | some s2 =>
      rw [h2] at h
      simp only [Option.some_bind] at h
      by_cases hcap : s2.takeWhile (fun c => !isQuoteChar c) = []
      · rw [if_pos hcap] at h; simp at h
      · rw [if_neg hcap] at h
        cases h3 : matchQuote (s2.dropWhile (fun c => !isQuoteChar c)) with
        | none => rw [h3] at h; simp at h
        | some s3 =>
          rw [h3] at h
          simp only [Option.map_some', Option.some.injEq] at h
          obtain ⟨lc, hs, hlc⟩ := matchLitCI_some _ _ _ h1
          obtain ⟨q3, hs1, hq3⟩ := matchQuote_some h2
          obtain ⟨q4, hs2, hq4⟩ := matchQuote_some h3
          refine ⟨lc, q3, q4, s3, ?_, hlc, hq3, ?_, hq4⟩
          · rw [hs, hs1]
            have hsplit : s2 = s2.takeWhile (fun c => !isQuoteChar c) ++
                s2.dropWhile (fun c => !isQuoteChar c) :=
              (List.takeWhile_append_dropWhile _ _).symm
            rw [h, hs2] at hsplit
            rw [← hsplit]
          · constructor
            · rw [← h]; exact hcap
            · intro c hc
              rw [← h] at hc
              have := List.mem_takeWhile_imp hc
              simpa using this

theorem tail1_complete {lc : List Char} {q3 : Char} {X : List Char} {q4 : Char}
    {rest : List Char} (hlc : ciStr lc "content=") (hq3 : isQuoteChar q3 = true)
    (hX : okCap X) (hq4 : isQuoteChar q4 = true) :
    tail1 (lc ++ (q3 :: (X ++ (q4 :: rest)))) = some X := by
  unfold tail1
  rw [matchLitCI_complete _ _ _ hlc]
  simp only [Option.some_bind]
  rw [matchQuote_complete hq3]
  simp only [Option.some_bind]
  obtain ⟨htake, hdrop⟩ := takeWhile_nonquote X q4 rest hX.2 hq4
  rw [htake, hdrop, if_neg hX.1, matchQuote_complete hq4]
  simp

theorem gapScan_some {tail : List Char → Option (List Char)} :
    ∀ {s r : List Char}, gapScan tail s = some r →
    ∃ gap rest, s = gap ++ rest ∧ noGt gap ∧ tail rest = some r := by
  intro s
  induction s with
  | nil =>
    intro r h
    rw [gapScan] at h
    exact ⟨[], [], by simp, by simp [noGt], h⟩
  | cons c cs ih =>
    intro r h
    rw [gapScan] at h
    by_cases hc : c = '>'
    · rw [if_pos hc] at h
      exact ⟨[], c :: cs, by simp, by simp [noGt], h⟩
    · rw [if_neg hc] at h
      cases hg : gapScan tail cs with
      | some r' =>
        rw [hg] at h
        simp only [Option.some.injEq] at h
        obtain ⟨gap, rest, hs, hgap, ht⟩ := ih (h ▸ hg)
        exact ⟨c :: gap, rest, by simp [hs], by
          intro d hd
          rcases List.mem_cons.mp hd with hdc | hdg
          · rw [hdc]; exact hc
          · exact hgap d hdg, ht⟩
      | none =>
        rw [hg] at h
        exact ⟨[], c :: cs, by simp, by simp [noGt], h⟩

theorem gapScan_here {tail : List Char → Option (List Char)} {s r : List Char}
    (h : tail s = some r) : ∃ r', gapScan tail s = some r' := by
  cases s with
  | nil => exact ⟨r, by rw [gapScan]; exact h⟩
  | cons c cs =>
    rw [gapScan]
    by_cases hc : c = '>'
    · rw [if_pos hc]; exact ⟨r, h⟩
    · rw [if_neg hc]
      cases hg : gapScan tail cs with
      | some r' => exact ⟨r', rfl⟩
      | none => exact ⟨r, h⟩

theorem gapScan_complete {tail : List Char → Option (List Char)} :
    ∀ (gap : List Char) {rest r : List Char}, noGt gap → tail rest = some r →
    ∃ r', gapScan tail (gap ++ rest) = some r'
  | [], rest, r, _, ht => by simpa using gapScan_here ht
  | c :: gap, rest, r, hgap, ht => by
    have hc : c ≠ '>' := hgap c (by simp)
    obtain ⟨r', hr'⟩ := gapScan_complete gap (fun d hd => hgap d (by simp [hd])) ht
    refine ⟨r', ?_⟩
    rw [List.cons_append, gapScan, if_neg hc, hr']

theorem pat1At_some {s cap : List Char} (h : pat1At s = some cap) :
    ∃ lp q1 lo q2 gap lc q3 q4 rest,
      s = lp ++ (q1 :: (lo ++ (q2 :: (gap ++ (lc ++ (q3 :: (cap ++ (q4 :: rest)))))))) ∧
      ciStr lp "property=" ∧ isQuoteChar q1 = true ∧ ciStr lo "og:image" ∧
      isQuoteChar q2 = true ∧ noGt gap ∧ ciStr lc "content=" ∧
      isQuoteChar q3 = true ∧ okCap cap ∧ isQuoteChar q4 = true := by
  unfold pat1At at h
  cases h1 : matchLitCI "property=".data s with
  | none => rw [h1] at h; simp at h
  | some s1 =>
    rw [h1] at h; simp only [Option.some_bind] at h
    cases h2 : matchQuote s1 with
    | none => rw [h2] at h; simp at h
    | some s2 =>
      rw [h2] at h; simp only [Option.some_bind] at h
      cases h3 : matchLitCI "og:image".data s2 with
      | none => rw [h3] at h; simp at h
      | some s3 =>
        rw [h3] at h; simp only [Option.some_bind] at h
        cases h4 : matchQuote s3 with
        | none => rw [h4] at h; simp at h
        | some s4 =>
          rw [h4] at h; simp only [Option.some_bind] at h
          obtain ⟨gap, rest0, hs4, hgap, ht⟩ := gapScan_some h
          obtain ⟨lc, q3, q4, rest, hrest0, hlc, hq3, hcap, hq4⟩ := tail1_some ht
          obtain ⟨lp, hsp, hlp⟩ := matchLitCI_some _ _ _ h1
          obtain ⟨q1, hs1, hq1⟩ := matchQuote_some h2
          obtain ⟨lo, hs2, hlo⟩ := matchLitCI_some _ _ _ h3
          obtain ⟨q2, hs3, hq2⟩ := matchQuote_some h4
          refine ⟨lp, q1, lo, q2, gap, lc, q3, q4, rest, ?_,
            hlp, hq1, hlo, hq2, hgap, hlc, hq3, hcap, hq4⟩
          rw [hsp, hs1, hs2, hs3, hs4, hrest0]

theorem pat1At_complete {lp : List Char} {q1 : Char} {lo : List Char} {q2 : Char}
    {gap lc : List Char} {q3 : Char} {X : List Char} {q4 : Char} {rest : List Char}
    (hlp : ciStr lp "property=") (hq1 : isQuoteChar q1 = true)
    (hlo : ciStr lo "og:image") (hq2 : isQuoteChar q2 = true) (hgap : noGt gap)
    (hlc : ciStr lc "content=") (hq3 : isQuoteChar q3 = true) (hX : okCap X)
    (hq4 : isQuoteChar q4 = true) :
    ∃ cap, pat1At
      (lp ++ (q1 :: (lo ++ (q2 :: (gap ++ (lc ++ (q3 :: (X ++ (q4 :: rest))))))))) = some cap := by
  unfold pat1At
  rw [matchLitCI_complete _ _ _ hlp]
  simp only [Option.some_bind]
  rw [matchQuote_complete hq1]
  simp only [Option.some_bind]
  rw [matchLitCI_complete _ _ _ hlo]
  simp only [Option.some_bind]
  rw [matchQuote_complete hq2]
  simp only [Option.some_bind]
  exact gapScan_complete gap hgap (tail1_complete hlc hq3 hX hq4)

theorem tail2_some {cap s r : List Char} (h : tail2 cap s = some r) :
    r = cap ∧ ∃ lp q3 lo q4 rest, s = lp ++ (q3 :: (lo ++ (q4 :: rest))) ∧
      ciStr lp "property=" ∧ isQuoteChar q3 = true ∧ ciStr lo "og:image" ∧
      isQuoteChar q4 = true := by
  unfold tail2 at h
  cases h1 : matchLitCI "property=".data s with
  | none => rw [h1] at h; simp at h
  | some s1 =>
    rw [h1] at h; simp only [Option.some_bind] at h
    cases h2 : matchQuote s1 with
    | none => rw [h2] at h; simp at h
    | some s2 =>
      rw [h2] at h; simp only [Option.some_bind] at h
      cases h3 : matchLitCI "og:image".data s2 with
      | none => rw [h3] at h; simp at h
      | some s3 =>
        rw [h3] at h; simp only [Option.some_bind] at h
        cases h4 : matchQuote s3 with
        | none => rw [h4] at h; simp at h
        | some s4 =>
          rw [h4] at h
          simp only [Option.map_some', Option.some.injEq] at h
          obtain ⟨lp, hsp, hlp⟩ := matchLitCI_some _ _ _ h1
          obtain ⟨q3, hs1, hq3⟩ := matchQuote_some h2
          obtain ⟨lo, hs2, hlo⟩ := matchLitCI_some _ _ _ h3
          obtain ⟨q4, hs3, hq4⟩ := matchQuote_some h4
          refine ⟨h.symm, lp, q3, lo, q4, s4, ?_, hlp, hq3, hlo, hq4⟩
          rw [hsp, hs1, hs2, hs3]

theorem tail2_complete {cap lp : List Char} {q3 : Char} {lo : List Char} {q4 : Char}
    {rest : List Char} (hlp : ciStr lp "property=") (hq3 : isQuoteChar q3 = true)
    (hlo : ciStr lo "og:image") (hq4 : isQuoteChar q4 = true) :
    tail2 cap (lp ++ (q3 :: (lo ++ (q4 :: rest)))) = some cap := by
  unfold tail2
  rw [matchLitCI_complete _ _ _ hlp]
  simp only [Option.some_bind]
  rw [matchQuote_complete hq3]
  simp only [Option.some_bind]
  rw [matchLitCI_complete _ _ _ hlo]
  simp only [Option.some_bind]
  rw [matchQuote_complete hq4]
  simp

theorem pat2At_some {s cap : List Char} (h : pat2At s = some cap) :
    ∃ lc q1 q2 gap lp q3 lo q4 rest,
      s = lc ++ (q1 :: (cap ++ (q2 :: (gap ++ (lp ++ (q3 :: (lo ++ (q4 :: rest)))))))) ∧
      ciStr lc "content=" ∧ isQuoteChar q1 = true ∧ okCap cap ∧
      isQuoteChar q2 = true ∧ noGt gap ∧ ciStr lp "property=" ∧
      isQuoteChar q3 = true ∧ ciStr lo "og:image" ∧ isQuoteChar q4 = true := by
  unfold pat2At at h
  cases h1 : matchLitCI "content=".data s with
  | none => rw [h1] at h; simp at h
  | some s1 =>
    rw [h1] at h; simp only [Option.some_bind] at h
    cases h2 : matchQuote s1 with
    | none => rw [h2] at h; simp at h
    | some s2 =>
      rw [h2] at h; simp only [Option.some_bind] at h
      by_cases hcap : s2.takeWhile (fun c => !isQuoteChar c) = []
      · rw [if_pos hcap] at h; simp at h
      · rw [if_neg hcap] at h
        cases h3 : matchQuote (s2.dropWhile (fun c => !isQuoteChar c)) with
        | none => rw [h3] at h; simp at h
        | some s3 =>
          rw [h3] at h
          simp only [Option.some_bind] at h
          obtain ⟨gap, rest0, hs3, hgap, ht⟩ := gapScan_some h
          obtain ⟨hr, lp, q3, lo, q4, rest, hrest0, hlp, hq3, hlo, hq4⟩ := tail2_some ht
          obtain ⟨lc, hsp, hlc⟩ := matchLitCI_some _ _ _ h1
          obtain ⟨q1, hs1, hq1⟩ := matchQuote_some h2
          obtain ⟨q2, hs2, hq2⟩ := matchQuote_some h3
          refine ⟨lc, q1, q2, gap, lp, q3, lo, q4, rest, ?_,
            hlc, hq1, ⟨?_, ?_⟩, hq2, hgap, hlp, hq3, hlo, hq4⟩
          · rw [hsp, hs1]
            have hsplit : s2 = s2.takeWhile (fun c => !isQuoteChar c) ++
                s2.dropWhile (fun c => !isQuoteChar c) :=
              (List.takeWhile_append_dropWhile _ _).symm
            rw [hs2, hs3, hrest0] at hsplit
            rw [hsplit, hr]
          · rw [hr]; exact hcap
          · intro c hc
            rw [hr] at hc
            have := List.mem_takeWhile_imp hc
            simpa using this

theorem pat2At_complete {lc : List Char} {q1 : Char} {X : List Char} {q2 : Char}
    {gap lp : List Char} {q3 : Char} {lo : List Char} {q4 : Char} {rest : List Char}
    (hlc : ciStr lc "content=") (hq1 : isQuoteChar q1 = true) (hX : okCap X)
    (hq2 : isQuoteChar q2 = true) (hgap : noGt gap) (hlp : ciStr lp "property=")
    (hq3 : isQuoteChar q3 = true) (hlo : ciStr lo "og:image")
    (hq4 : isQuoteChar q4 = true) :
    ∃ cap, pat2At
      (lc ++ (q1 :: (X ++ (q2 :: (gap ++ (lp ++ (q3 :: (lo ++ (q4 :: rest))))))))) = some cap := by
  unfold pat2At
  rw [matchLitCI_complete _ _ _ hlc]
  simp only [Option.some_bind]
  rw [matchQuote_complete hq1]
  simp only [Option.some_bind]
  obtain ⟨htake, hdrop⟩ :=
    takeWhile_nonquote X q2 (gap ++ (lp ++ (q3 :: (lo ++ (q4 :: rest))))) hX.2 hq2
  rw [htake, hdrop, if_neg hX.1, matchQuote_complete hq2]
  simp only [Option.some_bind]
  exact gapScan_complete gap hgap (tail2_complete hlp hq3 hlo hq4)

theorem scanStarts_some {m : List Char → Option (List Char)} :
    ∀ {s r : List Char}, scanStarts m s = some r →
    ∃ pre suf, s = pre ++ suf ∧ m suf = some r := by
  intro s
  induction s with
  | nil =>
    intro r h
    rw [scanStarts] at h
    exact ⟨[], [], by simp, h⟩
  | cons c cs ih =>
    intro r h
    rw [scanStarts] at h
    cases hm : m (c :: cs) with
    | some r' =>
      rw [hm] at h
      simp only [Option.some.injEq] at h
      exact ⟨[], c :: cs, by simp, h ▸ hm⟩
    | none =>
      rw [hm] at h
      obtain ⟨pre, suf, hs, hmm⟩ := ih h
      exact ⟨c :: pre, suf, by simp [hs], hmm⟩

theorem scanStarts_complete {m : List Char → Option (List Char)} :
    ∀ (pre : List Char) {suf r : List Char}, m suf = some r →
    ∃ r', scanStarts m (pre ++ suf) = some r'
  | [], suf, r, h => by
    cases suf with
    | nil => exact ⟨r, by rw [List.nil_append, scanStarts]; exact h⟩
    | cons c cs => exact ⟨r, by rw [List.nil_append, scanStarts, h]⟩
  | c :: pre, suf, r, h => by
    rw [List.cons_append, scanStarts]
    cases hm : m (c :: (pre ++ suf)) with
    | some r'' => exact ⟨r'', rfl⟩
    | none =>
      obtain ⟨r', hr'⟩ := scanStarts_complete pre h
      exact ⟨r', hr'⟩

theorem find1_sound {html Y : List Char} (h : scanStarts pat1At html = some Y) :
    ogPat1 html Y := by
  obtain ⟨pre, suf, hs, hm⟩ := scanStarts_some h
  obtain ⟨lp, q1, lo, q2, gap, lc, q3, q4, rest, hsuf, hconds⟩ := pat1At_some hm
  exact ⟨pre, lp, q1, lo, q2, gap, lc, q3, q4, rest, by rw [hs, hsuf], hconds⟩

theorem find1_complete {html X : List Char} (h : ogPat1 html X) :
    ∃ Y, scanStarts pat1At html = some Y := by
  obtain ⟨pre, lp, q1, lo, q2, gap, lc, q3, q4, post, hs,
    hlp, hq1, hlo, hq2, hgap, hlc, hq3, hX, hq4⟩ := h
  obtain ⟨cap, hcap⟩ := pat1At_complete hlp hq1 hlo hq2 hgap hlc hq3 hX hq4
  rw [hs]
  exact scanStarts_complete pre hcap

theorem find2_sound {html Y : List Char} (h : scanStarts pat2At html = some Y) :
    ogPat2 html Y := by
  obtain ⟨pre, suf, hs, hm⟩ := scanStarts_some h
  obtain ⟨lc, q1, q2, gap, lp, q3, lo, q4, rest, hsuf, hconds⟩ := pat2At_some hm
  exact ⟨pre, lc, q1, q2, gap, lp, q3, lo, q4, rest, by rw [hs, hsuf], hconds⟩

theorem find2_complete {html X : List Char} (h : ogPat2 html X) :
    ∃ Y, scanStarts pat2At html = some Y := by
  obtain ⟨pre, lc, q1, q2, gap, lp, q3, lo, q4, post, hs,
    hlc, hq1, hX, hq2, hgap, hlp, hq3, hlo, hq4⟩ := h
  obtain ⟨cap, hcap⟩ := pat2At_complete hlc hq1 hX hq2 hgap hlp hq3 hlo hq4
  rw [hs]
  exact scanStarts_complete pre hcap

theorem extractOgImage_sound {html : String} {Y : String}
    (h : extractOgImage html = some Y) : ogPat html.data Y.data := by
  unfold extractOgImage at h
  cases hf1 : scanStarts pat1At html.data with
  | some r =>
    rw [hf1] at h
    simp only [Option.some.injEq] at h
    exact Or.inl (by rw [← h]; exact find1_sound hf1)
  | none =>
    rw [hf1] at h
    simp only at h
    cases hf2 : scanStarts pat2At html.data with
    | some r =>
      rw [hf2] at h
      simp only [Option.map_some', Option.some.injEq] at h
      exact Or.inr (by rw [← h]; exact find2_sound hf2)
    | none => rw [hf2] at h; simp at h

theorem extractOgImage_complete {html : String} {X : List Char}
    (h : ogPat html.data X) : ∃ Y, extractOgImage html = some Y := by
  unfold extractOgImage
  cases hf1 : scanStarts pat1At html.data with
  | some r => exact ⟨List.asString r, rfl⟩
  | none =>
    cases h with
    | inl h1 =>
      obtain ⟨Y, hY⟩ := find1_complete h1
      rw [hY] at hf1
      exact absurd hf1 (by simp)
    | inr h2 =>
      obtain ⟨Y, hY⟩ := find2_complete h2
      rw [hY]
      exact ⟨List.asString Y, rfl⟩

/-! ## Reaching the pipeline: reduction helpers -/

theorem strict_reach (env : Env) (u : String) (parsed : UrlParts)
    (h1 : env.urlParam = some u) (h2 : u ≠ "") (h3 : env.parseUrl u = some parsed)
    (h4 : parsed.hostname = "postimg.cc") (h5 : env.aborted = false) :
    strictGET env = (strictWorkResp env,
      [Effect.addAbortListener, Effect.setTimer 8000,
       Effect.fetchCall parsed.norm, Effect.clearTimer]) := by
  simp only [strictGET, strictWork, h1, h3, h5, h4, ne_eq, not_true_eq_false,
    if_false, if_neg h2, Bool.false_eq_true, List.append_eq]
  rfl

theorem always_reach_miss (env : Env) (u : String) (parsed : UrlParts)
    (h1 : env.urlParam = some u) (h2 : u ≠ "") (h3 : env.parseUrl u = some parsed)
    (h4 : parsed.hostname = "postimg.cc") (h5 : env.aborted = false)
    (h6 : env.cache parsed.norm = none) :
    alwaysGET env = alwaysAttempt0 env parsed.norm
      [Effect.cacheGet parsed.norm, Effect.addAbortListener] := by
  simp only [alwaysGET, alwaysStartPipeline, h1, h3, h4, h5, h6, ne_eq,
    not_true_eq_false, if_false, if_neg h2, Bool.false_eq_true, List.append_eq]
  rfl

theorem always_reach_stale (env : Env) (u : String) (parsed : UrlParts)
    (c : CacheEntry) (h1 : env.urlParam = some u) (h2 : u ≠ "")
    (h3 : env.parseUrl u = some parsed) (h4 : parsed.hostname = "postimg.cc")
    (h5 : env.aborted = false) (h6 : env.cache parsed.norm = some c)
    (h7 : ¬ env.now0 - c.ts < CACHE_TTL_MS) :
    alwaysGET env = alwaysAttempt0 env parsed.norm
      [Effect.cacheGet parsed.norm, Effect.addAbortListener] := by
  simp only [alwaysGET, alwaysStartPipeline, h1, h3, h4, h5, h6, ne_eq,
    not_true_eq_false, if_false, if_neg h2, if_neg h7, Bool.false_eq_true,
    List.append_eq]
  rfl

theorem always_reach_hit (env : Env) (u : String) (parsed : UrlParts)
    (c : CacheEntry) (h1 : env.urlParam = some u) (h2 : u ≠ "")
    (h3 : env.parseUrl u = some parsed) (h4 : parsed.hostname = "postimg.cc")
    (h6 : env.cache parsed.norm = some c) (h7 : env.now0 - c.ts < CACHE_TTL_MS) :
    alwaysGET env =
      (match nextRedirect env.parseUrl c.img 302 with
       | Except.ok r => (Except.ok r, [Effect.cacheGet parsed.norm])
       | Except.error e => (Except.error e, [Effect.cacheGet parsed.norm])) := by
  simp only [alwaysGET, h1, h3, h4, h6, ne_eq, not_true_eq_false, if_false,
    if_neg h2, if_pos h7]

/-! ## The always-an-image variant never sets a timer -/

theorem afterExtract_no_setTimer (env : Env) (key img : String) (effs : List Effect)
    (h : ∀ ms, Effect.setTimer ms ∉ effs) :
    ∀ ms, Effect.setTimer ms ∉ (alwaysAfterExtract env key img effs).2 := by
  intro ms
  unfold alwaysAfterExtract
  split
  · simp [List.mem_append, h ms]
  · split <;> simp [List.mem_append, h ms]

theorem afterLoop_no_setTimer (env : Env) (key : String) (html : Option String)
    (effs : List Effect) (h : ∀ ms, Effect.setTimer ms ∉ effs) :
    ∀ ms, Effect.setTimer ms ∉ (alwaysAfterLoop env key html effs).2 := by
  intro ms
  unfold alwaysAfterLoop
  split
  · simp [List.mem_append, h ms]
  · split
    · simp [List.mem_append, h ms]
    · exact afterExtract_no_setTimer env key _ effs h ms

theorem attempt1_no_setTimer (env : Env) (key : String) (effs : List Effect)
    (h : ∀ ms, Effect.setTimer ms ∉ effs) :
    ∀ ms, Effect.setTimer ms ∉ (alwaysAttempt1 env key effs).2 := by
  intro ms
  have h' : ∀ ms, Effect.setTimer ms ∉ effs ++ [Effect.fetchCall key] := by
    intro ms'
    simp [List.mem_append, h ms']
  unfold alwaysAttempt1
  split
  · split <;> simp [List.mem_append, h ms]
  · split
    · exact afterLoop_no_setTimer env key none _ h' ms
    · split
      · exact afterLoop_no_setTimer env key _ _ h' ms
      · split <;> simp [List.mem_append, h ms]

theorem attempt0_no_setTimer (env : Env) (key : String) (effs : List Effect)
    (h : ∀ ms, Effect.setTimer ms ∉ effs) :
    ∀ ms, Effect.setTimer ms ∉ (alwaysAttempt0 env key effs).2 := by
  intro ms
  have h' : ∀ ms, Effect.setTimer ms ∉ effs ++ [Effect.fetchCall key] := by
    intro ms'
    simp [List.mem_append, h ms']
  have h'' : ∀ ms, Effect.setTimer ms ∉
      effs ++ [Effect.fetchCall key, Effect.sleep 150] := by
    intro ms'
    simp [List.mem_append, h ms']
  unfold alwaysAttempt0
  split
  · split
    · simp [List.mem_append, h ms]
    · exact attempt1_no_setTimer env key _ h'' ms
  · split
    · exact afterLoop_no_setTimer env key none _ h' ms
    · split
      · exact afterLoop_no_setTimer env key _ _ h' ms
      · split
        · simp [List.mem_append, h ms]
        · exact attempt1_no_setTimer env key _ h'' ms

theorem alwaysGET_no_setTimer (env : Env) :
    ∀ ms, Effect.setTimer ms ∉ (alwaysGET env).2 := by
  intro ms
  have hbase : ∀ ms, Effect.setTimer ms ∉
      [Effect.cacheGet (String.mk [])] := by simp
  unfold alwaysGET
  split
  · simp
  · split
    · simp
    · split
      · simp
      · split
        · simp
        · unfold alwaysStartPipeline
          split
          · split
            · split <;> simp
            · split
              · simp [List.mem_append]
              · exact attempt0_no_setTimer env _ _ (by simp) ms
          · split
            · simp [List.mem_append]
            · exact attempt0_no_setTimer env _ _ (by simp) ms

/-! ## A fetch effect implies the request passed validation -/

theorem strictGET_fetch_origin (env : Env)
    (h : hasFetchCall (strictGET env).2 = true) :
    ∃ u parsed, env.urlParam = some u ∧ u ≠ "" ∧ env.parseUrl u = some parsed ∧
      parsed.hostname = "postimg.cc" := by
  unfold strictGET at h
  split at h
  · simp [hasFetchCall] at h
  · rename_i url heq
    split at h
    · simp [hasFetchCall] at h
    · rename_i hne
      split at h
      · simp [hasFetchCall] at h
      · rename_i parsed hparse
        split at h
        · simp [hasFetchCall] at h
        · rename_i hhost
          split at h
          · simp [hasFetchCall] at h
          · exact ⟨url, parsed, heq, hne, hparse, by simpa using hhost⟩

theorem alwaysGET_fetch_origin (env : Env)
    (h : hasFetchCall (alwaysGET env).2 = true) :
    ∃ u parsed, env.urlParam = some u ∧ u ≠ "" ∧ env.parseUrl u = some parsed ∧
      parsed.hostname = "postimg.cc" := by
  unfold alwaysGET at h
  split at h
  · simp [hasFetchCall] at h
  · rename_i url heq
    split at h
    · simp [hasFetchCall] at h
    · rename_i hne
      split at h
      · simp [hasFetchCall] at h
      · rename_i parsed hparse
        split at h
        · simp [hasFetchCall] at h
        · rename_i hhost
          exact ⟨url, parsed, heq, hne, hparse, by simpa using hhost⟩

/-! ## Dispatch helpers for fetch outcomes -/

theorem strictWorkResp_fetchErr (env : Env) (e : JsError)
    (hf : env.fetches 0 = Except.error e) :
    strictWorkResp env =
      (if isAbortLikeError (some e) then Except.ok (Response.empty 204)
       else Except.ok (Response.json 500 "Unexpected error fetching postimg")) := by
  unfold strictWorkResp
  rw [hf]

theorem attempt0_fetchErr_abort (env : Env) (key : String) (effs : List Effect)
    (e : JsError) (hf : env.fetches 0 = Except.error e)
    (ha : isAbortLikeError (some e) = true) :
    alwaysAttempt0 env key effs =
      (Except.ok (imageFallbackResponse "Image request cancelled"),
        effs ++ [Effect.fetchCall key, Effect.removeAbortListener]) := by
  unfold alwaysAttempt0
  rw [hf]
  simp [ha]

theorem attempt0_fetchErr_retry (env : Env) (key : String) (effs : List Effect)
    (e : JsError) (hf : env.fetches 0 = Except.error e)
    (ha : isAbortLikeError (some e) = false) :
    alwaysAttempt0 env key effs =
      alwaysAttempt1 env key (effs ++ [Effect.fetchCall key, Effect.sleep 150]) := by
  unfold alwaysAttempt0
  rw [hf]
  simp [ha]

theorem attempt1_fetchErr_other (env : Env) (key : String) (effs : List Effect)
    (e : JsError) (hf : env.fetches 1 = Except.error e)
    (ha : isAbortLikeError (some e) = false) :
    alwaysAttempt1 env key effs =
      (Except.ok (imageFallbackResponse "Preview unavailable"),
        effs ++ [Effect.fetchCall key, Effect.removeAbortListener]) := by
  unfold alwaysAttempt1
  rw [hf]
  simp [ha]

theorem attempt1_ok_text (env : Env) (key : String) (effs : List Effect)
    (html : String) (hf : env.fetches 1 = Except.ok ⟨true, Except.ok html⟩) :
    alwaysAttempt1 env key effs =
      alwaysAfterLoop env key (some html) (effs ++ [Effect.fetchCall key]) := by
  unfold alwaysAttempt1
  rw [hf]
  rfl

theorem attempt0_ok_text (env : Env) (key : String) (effs : List Effect)
    (html : String) (hf : env.fetches 0 = Except.ok ⟨true, Except.ok html⟩) :
    alwaysAttempt0 env key effs =
      alwaysAfterLoop env key (some html) (effs ++ [Effect.fetchCall key]) := by
  unfold alwaysAttempt0
  rw [hf]
  rfl

theorem attempt0_ok_notOk (env : Env) (key : String) (effs : List Effect)
    (t : Except JsError String) (hf : env.fetches 0 = Except.ok ⟨false, t⟩) :
    alwaysAttempt0 env key effs =
      alwaysAfterLoop env key none (effs ++ [Effect.fetchCall key]) := by
  unfold alwaysAttempt0
  rw [hf]
  simp

theorem afterLoop_extract_some (env : Env) (key : String) (s : String)
    (img : String) (effs : List Effect) (he : extractOgImage s = some img) :
    alwaysAfterLoop env key (some s) effs = alwaysAfterExtract env key img effs := by
  show (match extractOgImage s with
    | none =>
      (Except.ok (imageFallbackResponse "Preview unavailable"),
        effs ++ [Effect.removeAbortListener])
    | some img => alwaysAfterExtract env key img effs) = alwaysAfterExtract env key img effs
  rw [he]

theorem afterExtract_redirect_ok (env : Env) (key img : String) (p : UrlParts)
    (effs : List Effect) (hp : env.parseUrl img = some p) :
    alwaysAfterExtract env key img effs =
      (Except.ok (Response.redirect p.norm 302),
        effs ++ [Effect.cacheSet key ⟨img, env.now1⟩, Effect.removeAbortListener]) := by
  unfold alwaysAfterExtract nextRedirect
  rw [hp]

/-! ## Claim C4: the extractor against the spec pattern -/

/-- C4 (corrected): the extractor is sound and complete for the
spec's meta-tag pattern — whenever some pattern occurrence with content
X exists, a value is returned and the returned value is itself the
content of such an occurrence; when a unique content value occurs, it
is returned exactly; and when no occurrence exists the result is
`none`.  (The original claim's "returns exactly X for every X" fails
when occurrences with different contents coexist; see the
counterexample.) -/
theorem extract_og_image_spec (html : String) :
    ((∃ X, ogPat html.data X) →
      ∃ Y, extractOgImage html = some Y ∧ ogPat html.data Y.data)
    ∧ ((¬ ∃ X, ogPat html.data X) → extractOgImage html = none)
    ∧ (∀ X : List Char, ogPat html.data X → (∀ Y, ogPat html.data Y → Y = X) →
        extractOgImage html = some (List.asString X)) := by
  refine ⟨?_, ?_, ?_⟩
  · rintro ⟨X, hX⟩
    obtain ⟨Y, hY⟩ := extractOgImage_complete hX
    exact ⟨Y, hY, extractOgImage_sound hY⟩
  · intro hno
    cases hE : extractOgImage html with
    | none => rfl
    | some Y => exact absurd ⟨Y.data, extractOgImage_sound hE⟩ hno
  · intro X hX huniq
    obtain ⟨Y, hY⟩ := extractOgImage_complete hX
    have hyd : Y.data = X := huniq Y.data (extractOgImage_sound hY)
    have hYX : Y = List.asString X := by
      cases Y
      cases hyd
      rfl
    rw [hY, hYX]

/-- C4 witness: a unique well-formed og:image meta tag is extracted,
and the extraction is certified against the spec pattern. -/
theorem extract_og_image_spec_witness :
    ∃ Y, extractOgImage c4whtml = some Y ∧ ogPat c4whtml.data Y.data :=
  (extract_og_image_spec c4whtml).1
    ⟨"https://i.postimg.cc/x.jpg".data,
     Or.inl ⟨"<meta ".data, "property=".data, '"', "og:image".data, '"', " ".data,
       "content=".data, '"', '"', "/>".data,
       by decide, by decide, by decide, by decide, by decide, by decide, by decide,
       by decide, by decide, by decide⟩⟩

/-- C4 counterexample: `c4html` contains the og:image pattern with
content "B", yet the extractor returns "A" (the leftmost match of the
first regex), so "for every contained pattern with content X the result
is exactly X" is false. -/
theorem extract_og_image_counterexample :
    ogPat c4html.data "B".data ∧ extractOgImage c4html = some "A" ∧
    extractOgImage c4html ≠ some "B" := by
  refine ⟨Or.inl ⟨"property=\"og:image\" content=\"A\"><meta ".data,
    "property=".data, '"', "og:image".data, '"', " ".data,
    "content=".data, '"', '"', ">".data,
    by decide, by decide, by decide, by decide, by decide, by decide, by decide,
    by decide, by decide, by decide⟩, by decide, by decide⟩

/-! ## Claim C3: the host allow-list -/

/-- C3 (confirmed): a request whose URL parses but whose hostname is
not exactly "postimg.cc" gets the designated host-not-allowed response
in each variant with an empty effect trace (no outbound call, in fact
no effect at all); and conversely any run of either variant that
performs an outbound fetch had a `url` parameter that parsed with
hostname exactly "postimg.cc". -/
theorem host_allowlist_enforced :
    (∀ (env : Env) (u : String) (parsed : UrlParts), env.urlParam = some u → u ≠ "" →
      env.parseUrl u = some parsed → parsed.hostname ≠ "postimg.cc" →
      strictGET env = (Except.ok (Response.json 400 "Only postimg.cc is allowed"), []) ∧
      alwaysGET env = (Except.ok (imageFallbackResponse "Only postimg.cc is allowed"), []))
    ∧ (∀ env : Env, hasFetchCall (strictGET env).2 = true ∨
        hasFetchCall (alwaysGET env).2 = true →
        ∃ u parsed, env.urlParam = some u ∧ env.parseUrl u = some parsed ∧
          parsed.hostname = "postimg.cc") := by
  constructor
  · intro env u parsed h1 h2 h3 h4
    constructor
    · simp only [strictGET, h1, h3, if_neg h2]
      rw [if_pos h4]
    · simp only [alwaysGET, h1, h3, if_neg h2]
      rw [if_pos h4]
  · intro env h
    rcases h with h | h
    · obtain ⟨u, parsed, h1, _, h3, h4⟩ := strictGET_fetch_origin env h
      exact ⟨u, parsed, h1, h3, h4⟩
    · obtain ⟨u, parsed, h1, _, h3, h4⟩ := alwaysGET_fetch_origin env h
      exact ⟨u, parsed, h1, h3, h4⟩

/-- C3 witness: the rejected-host fixture produces both designated
responses with no effects. -/
theorem host_allowlist_enforced_witness :
    strictGET envC3 = (Except.ok (Response.json 400 "Only postimg.cc is allowed"), []) ∧
    alwaysGET envC3 = (Except.ok (imageFallbackResponse "Only postimg.cc is allowed"), []) :=
  host_allowlist_enforced.1 envC3 "https://evil.example.com/x"
    ⟨"evil.example.com", "https://evil.example.com/x"⟩ rfl (by decide) (by decide) (by decide)

/-! ## Claim C6: missing or malformed url -/

/-- C6 (confirmed): a missing `url` parameter (absent, or the empty
string, which is falsy in JS) yields the designated missing-input
response and a `url` that fails to parse yields the designated
invalid-input response, in each variant, always with an empty effect
trace — no outbound network call is made. -/
theorem invalid_input_no_fetch :
    (∀ env : Env, env.urlParam = none →
      strictGET env = (Except.ok (Response.json 400 "Missing url"), []) ∧
      alwaysGET env = (Except.ok (imageFallbackResponse "Missing image url"), []))
    ∧ (∀ (env : Env) (u : String), env.urlParam = some u → u ≠ "" →
        env.parseUrl u = none →
        strictGET env = (Except.ok (Response.json 400 "Invalid url"), []) ∧
        alwaysGET env = (Except.ok (imageFallbackResponse "Invalid image url"), []))
    ∧ (∀ env : Env, env.urlParam = some "" →
        strictGET env = (Except.ok (Response.json 400 "Missing url"), []) ∧
        alwaysGET env = (Except.ok (imageFallbackResponse "Missing image url"), [])) := by
  refine ⟨?_, ?_, ?_⟩
  · intro env h
    constructor <;> simp [strictGET, alwaysGET, h]
  · intro env u h1 h2 h3
    constructor <;> simp [strictGET, alwaysGET, h1, h3, if_neg h2]
  · intro env h
    constructor <;> simp [strictGET, alwaysGET, h]

/-- C6 witness: a non-parsing `url` value gets the invalid-input
responses with no effects, and an absent `url` gets the missing-input
responses with no effects. -/
theorem invalid_input_no_fetch_witness :
    (strictGET envC6 = (Except.ok (Response.json 400 "Invalid url"), []) ∧
     alwaysGET envC6 = (Except.ok (imageFallbackResponse "Invalid image url"), [])) ∧
    (strictGET envC6b = (Except.ok (Response.json 400 "Missing url"), []) ∧
     alwaysGET envC6b = (Except.ok (imageFallbackResponse "Missing image url"), [])) :=
  ⟨invalid_input_no_fetch.2.1 envC6 "notaurl" rfl (by decide) (by decide),
   invalid_input_no_fetch.1 envC6b rfl⟩

/-! ## Claim C7: cancellation-shaped errors take priority -/

/-- C7 (confirmed): every listed cancellation shape (abort-style name,
connection-reset code, upstream-aborted code, a message mentioning
"aborted", each also nested inside a wrapped cause) is classified as
abort-like; and a first-fetch rejection classified abort-like produces
the cancellation-shaped response of each variant — 204 in the strict
variant, the "Image request cancelled" placeholder in the
always-an-image variant — with exactly one fetch in the trace and no
backoff sleep, i.e. it is never retried and never mapped to a 5xx/404
response. -/
theorem abort_priority :
    (∀ e : JsError,
      (e.name = some "AbortError" ∨ e.code = some "ECONNRESET" ∨
       e.code = some "UND_ERR_ABORTED" ∨
       (∃ m, e.message = some m ∧ includesAborted m = true) ∨
       (∃ c, e.cause = some c ∧
         (c.code = some "ECONNRESET" ∨ c.code = some "UND_ERR_ABORTED" ∨
          c.name = some "AbortError" ∨
          (∃ m, c.message = some m ∧ includesAborted m = true)))) →
      isAbortLikeError (some e) = true)
    ∧ (∀ (env : Env) (u : String) (parsed : UrlParts) (e : JsError),
        env.urlParam = some u → u ≠ "" → env.parseUrl u = some parsed →
        parsed.hostname = "postimg.cc" → env.aborted = false →
        env.fetches 0 = Except.error e → isAbortLikeError (some e) = true →
        strictGET env = (Except.ok (Response.empty 204),
          [Effect.addAbortListener, Effect.setTimer 8000,
           Effect.fetchCall parsed.norm, Effect.clearTimer]))
    ∧ (∀ (env : Env) (u : String) (parsed : UrlParts) (e : JsError),
        env.urlParam = some u → u ≠ "" → env.parseUrl u = some parsed →
        parsed.hostname = "postimg.cc" → env.aborted = false →
        env.cache parsed.norm = none →
        env.fetches 0 = Except.error e → isAbortLikeError (some e) = true →
        alwaysGET env = (Except.ok (imageFallbackResponse "Image request cancelled"),
          [Effect.cacheGet parsed.norm, Effect.addAbortListener,
           Effect.fetchCall parsed.norm, Effect.removeAbortListener])) := by
  refine ⟨?_, ?_, ?_⟩
  · intro e h
    unfold isAbortLikeError
    rcases h with h | h | h | ⟨m, hm, hi⟩ | ⟨c, hc, hsub⟩
    · simp [h]
    · simp [h]
    · simp [h]
    · simp [hm, hi]
    · rcases hsub with h | h | h | ⟨m, hm, hi⟩
      · simp [hc, h]
      · simp [hc, h]
      · simp [hc, h]
      · simp [hc, hm, hi]
  · intro env u parsed e h1 h2 h3 h4 h5 hf ha
    rw [strict_reach env u parsed h1 h2 h3 h4 h5,
      strictWorkResp_fetchErr env e hf]
    simp [ha]
  · intro env u parsed e h1 h2 h3 h4 h5 h6 hf ha
    rw [always_reach_miss env u parsed h1 h2 h3 h4 h5 h6,
      attempt0_fetchErr_abort env parsed.norm _ e hf ha]
    rfl

/-- C7 witness: a genuine `AbortError` on the first fetch yields the
204 and the cancelled placeholder with a single fetch each. -/
theorem abort_priority_witness :
    strictGET envC7 = (Except.ok (Response.empty 204),
      [Effect.addAbortListener, Effect.setTimer 8000,
       Effect.fetchCall "https://postimg.cc/abc", Effect.clearTimer]) ∧
    alwaysGET envC7 = (Except.ok (imageFallbackResponse "Image request cancelled"),
      [Effect.cacheGet "https://postimg.cc/abc", Effect.addAbortListener,
       Effect.fetchCall "https://postimg.cc/abc", Effect.removeAbortListener]) :=
  ⟨abort_priority.2.1 envC7 "https://postimg.cc/abc"
      ⟨"postimg.cc", "https://postimg.cc/abc"⟩ abortErr rfl (by decide) (by decide)
      (by decide) rfl rfl (by decide),
   abort_priority.2.2 envC7 "https://postimg.cc/abc"
      ⟨"postimg.cc", "https://postimg.cc/abc"⟩ abortErr rfl (by decide) (by decide)
      (by decide) rfl rfl rfl (by decide)⟩

/-! ## Claim C9: any message containing "aborted" is cancellation -/

theorem containsAborted_append : ∀ (a b : List Char),
    "aborted".data.isPrefixOf b = true → containsAborted (a ++ b) = true
  | [], b, h => by
    cases b with
    | nil => exact absurd h (by decide)
    | cons c t =>
      rw [List.nil_append]
      show ("aborted".data.isPrefixOf (c :: t) || containsAborted t) = true
      rw [h]
      simp
  | c :: a, b, h => by
    rw [List.cons_append]
    show ("aborted".data.isPrefixOf (c :: (a ++ b)) || containsAborted (a ++ b)) = true
    rw [containsAborted_append a b h]
    simp

theorem includesAborted_of_infix (m : String) (pre mid post : List Char)
    (hm : m.data = pre ++ mid ++ post)
    (hmid : mid.map Char.toLower = "aborted".data) :
    includesAborted m = true := by
  unfold includesAborted
  rw [hm, List.map_append, List.map_append, hmid, List.append_assoc]
  exact containsAborted_append _ _ (List.isPrefixOf_iff_prefix.mpr ⟨_, rfl⟩)

/-- C9 (confirmed): every error whose `message` (or whose
`cause.message`) contains the substring "aborted" in any letter case is
classified abort-like by `isAbortLikeError`, and when such an error is
the first fetch's rejection, the strict variant answers 204 and the
always-an-image variant answers the "Image request cancelled"
placeholder — even when the error is a genuine upstream failure that
merely mentions the word. -/
theorem aborted_substring_classified :
    (∀ (e : JsError) (m : String) (pre mid post : List Char),
      e.message = some m → m.data = pre ++ mid ++ post →
      mid.map Char.toLower = "aborted".data → isAbortLikeError (some e) = true)
    ∧ (∀ (e : JsError) (c : ErrCause) (m : String) (pre mid post : List Char),
      e.cause = some c → c.message = some m → m.data = pre ++ mid ++ post →
      mid.map Char.toLower = "aborted".data → isAbortLikeError (some e) = true)
    ∧ (∀ (env : Env) (u : String) (parsed : UrlParts) (e : JsError),
        env.urlParam = some u → u ≠ "" → env.parseUrl u = some parsed →
        parsed.hostname = "postimg.cc" → env.aborted = false →
        env.fetches 0 = Except.error e → isAbortLikeError (some e) = true →
        (strictGET env).1 = Except.ok (Response.empty 204))
    ∧ (∀ (env : Env) (u : String) (parsed : UrlParts) (e : JsError),
        env.urlParam = some u → u ≠ "" → env.parseUrl u = some parsed →
        parsed.hostname = "postimg.cc" → env.aborted = false →
        env.cache parsed.norm = none →
        env.fetches 0 = Except.error e → isAbortLikeError (some e) = true →
        (alwaysGET env).1 =
          Except.ok (imageFallbackResponse "Image request cancelled")) := by
  refine ⟨?_, ?_, ?_, ?_⟩
  · intro e m pre mid post hmsg hm hmid
    unfold isAbortLikeError
    simp [hmsg, includesAborted_of_infix m pre mid post hm hmid]
  · intro e c m pre mid post hc hmsg hm hmid
    unfold isAbortLikeError
    simp [hc, hmsg, includesAborted_of_infix m pre mid post hm hmid]
  · intro env u parsed e h1 h2 h3 h4 h5 hf ha
    rw [strict_reach env u parsed h1 h2 h3 h4 h5]
    rw [show (strictWorkResp env,
        [Effect.addAbortListener, Effect.setTimer 8000,
         Effect.fetchCall parsed.norm, Effect.clearTimer]).1 = strictWorkResp env
      from rfl]
    rw [strictWorkResp_fetchErr env e hf]
    simp [ha]
  · intro env u parsed e h1 h2 h3 h4 h5 h6 hf ha
    rw [always_reach_miss env u parsed h1 h2 h3 h4 h5 h6,
      attempt0_fetchErr_abort env parsed.norm _ e hf ha]

/-- C9 witness: a genuine upstream failure whose message is
"Request ABORTED by upstream" (name "Error", no abort code) is
classified abort-like and both variants answer with their
cancellation-shaped response. -/
theorem aborted_substring_classified_witness :
    isAbortLikeError (some mentionsAbortedErr) = true ∧
    (strictGET envC9).1 = Except.ok (Response.empty 204) ∧
    (alwaysGET envC9).1 =
      Except.ok (imageFallbackResponse "Image request cancelled") :=
  ⟨aborted_substring_classified.1 mentionsAbortedErr "Request ABORTED by upstream"
      "Request ".data "ABORTED".data " by upstream".data rfl (by decide) (by decide),
   aborted_substring_classified.2.2.1 envC9 "https://postimg.cc/abc"
      ⟨"postimg.cc", "https://postimg.cc/abc"⟩ mentionsAbortedErr rfl (by decide)
      (by decide) (by decide) rfl rfl (by decide),
   aborted_substring_classified.2.2.2 envC9 "https://postimg.cc/abc"
      ⟨"postimg.cc", "https://postimg.cc/abc"⟩ mentionsAbortedErr rfl (by decide)
      (by decide) (by decide) rfl rfl rfl (by decide)⟩

/-! ## Claim C1: the retry policy -/

theorem afterLoop_none (env : Env) (key : String) (effs : List Effect) :
    alwaysAfterLoop env key none effs =
      (Except.ok (imageFallbackResponse "Preview unavailable"),
        effs ++ [Effect.removeAbortListener]) := rfl

theorem nextRedirect_ok {parseUrl : String → Option UrlParts} {url : String}
    {p : UrlParts} (status : Nat) (hp : parseUrl url = some p) :
    nextRedirect parseUrl url status = Except.ok (Response.redirect p.norm status) := by
  unfold nextRedirect
  rw [hp]

theorem nextRedirect_err {parseUrl : String → Option UrlParts} {url : String}
    (status : Nat) (hp : parseUrl url = none) :
    nextRedirect parseUrl url status = Except.error (nextMalformedError url) := by
  unfold nextRedirect
  rw [hp]

/-- C1 (corrected): the retry policy belongs to the always-an-image
variant only.  There, a non-cancellation first-attempt failure is
retried exactly once after a 150ms backoff: failure followed by a
successful attempt (markup with an og:image that validates) yields the
302 redirect, and two consecutive non-cancellation failures yield the
"Preview unavailable" fallback — in both cases the trace shows exactly
two fetches separated by one `sleep 150` and nothing more.  The strict
variant performs a single fetch with no retry: a transient
non-cancellation failure goes straight to the generic 500 failure. -/
theorem retry_policy_amended :
    (∀ (env : Env) (u : String) (parsed : UrlParts) (e : JsError)
        (html img : String) (p : UrlParts),
      env.urlParam = some u → u ≠ "" → env.parseUrl u = some parsed →
      parsed.hostname = "postimg.cc" → env.aborted = false →
      env.cache parsed.norm = none →
      env.fetches 0 = Except.error e → isAbortLikeError (some e) = false →
      env.fetches 1 = Except.ok ⟨true, Except.ok html⟩ →
      extractOgImage html = some img → env.parseUrl img = some p →
      alwaysGET env = (Except.ok (Response.redirect p.norm 302),
        [Effect.cacheGet parsed.norm, Effect.addAbortListener,
         Effect.fetchCall parsed.norm, Effect.sleep 150,
         Effect.fetchCall parsed.norm,
         Effect.cacheSet parsed.norm ⟨img, env.now1⟩,
         Effect.removeAbortListener]))
    ∧ (∀ (env : Env) (u : String) (parsed : UrlParts) (e0 e1 : JsError),
      env.urlParam = some u → u ≠ "" → env.parseUrl u = some parsed →
      parsed.hostname = "postimg.cc" → env.aborted = false →
      env.cache parsed.norm = none →
      env.fetches 0 = Except.error e0 → isAbortLikeError (some e0) = false →
      env.fetches 1 = Except.error e1 → isAbortLikeError (some e1) = false →
      alwaysGET env = (Except.ok (imageFallbackResponse "Preview unavailable"),
        [Effect.cacheGet parsed.norm, Effect.addAbortListener,
         Effect.fetchCall parsed.norm, Effect.sleep 150,
         Effect.fetchCall parsed.norm, Effect.removeAbortListener]))
    ∧ (∀ (env : Env) (u : String) (parsed : UrlParts) (e : JsError),
      env.urlParam = some u → u ≠ "" → env.parseUrl u = some parsed →
      parsed.hostname = "postimg.cc" → env.aborted = false →
      env.fetches 0 = Except.error e → isAbortLikeError (some e) = false →
      strictGET env =
        (Except.ok (Response.json 500 "Unexpected error fetching postimg"),
         [Effect.addAbortListener, Effect.setTimer 8000,
          Effect.fetchCall parsed.norm, Effect.clearTimer])) := by
  refine ⟨?_, ?_, ?_⟩
  · intro env u parsed e html img p h1 h2 h3 h4 h5 h6 hf0 ha0 hf1 hext hp
    rw [always_reach_miss env u parsed h1 h2 h3 h4 h5 h6,
      attempt0_fetchErr_retry env parsed.norm _ e hf0 ha0,
      attempt1_ok_text env parsed.norm _ html hf1,
      afterLoop_extract_some env parsed.norm html img _ hext,
      afterExtract_redirect_ok env parsed.norm img p _ hp]
    rfl
  · intro env u parsed e0 e1 h1 h2 h3 h4 h5 h6 hf0 ha0 hf1 ha1
    rw [always_reach_miss env u parsed h1 h2 h3 h4 h5 h6,
      attempt0_fetchErr_retry env parsed.norm _ e0 hf0 ha0,
      attempt1_fetchErr_other env parsed.norm _ e1 hf1 ha1]
    rfl
  · intro env u parsed e h1 h2 h3 h4 h5 hf ha
    rw [strict_reach env u parsed h1 h2 h3 h4 h5,
      strictWorkResp_fetchErr env e hf]
    simp [ha]

/-- C1 witness: in the always-an-image variant a transient failure
followed by a successful attempt yields the redirect with exactly two
fetches and one 150ms sleep; two transient failures yield the fallback;
the strict half is instantiated in the counterexample. -/
theorem retry_policy_amended_witness :
    alwaysGET envC1 = (Except.ok (Response.redirect "https://i.postimg.cc/x.jpg" 302),
      [Effect.cacheGet "https://postimg.cc/abc", Effect.addAbortListener,
       Effect.fetchCall "https://postimg.cc/abc", Effect.sleep 150,
       Effect.fetchCall "https://postimg.cc/abc",
       Effect.cacheSet "https://postimg.cc/abc" ⟨"https://i.postimg.cc/x.jpg", 0⟩,
       Effect.removeAbortListener]) ∧
    alwaysGET envC1b = (Except.ok (imageFallbackResponse "Preview unavailable"),
      [Effect.cacheGet "https://postimg.cc/abc", Effect.addAbortListener,
       Effect.fetchCall "https://postimg.cc/abc", Effect.sleep 150,
       Effect.fetchCall "https://postimg.cc/abc", Effect.removeAbortListener]) :=
  ⟨retry_policy_amended.1 envC1 "https://postimg.cc/abc"
      ⟨"postimg.cc", "https://postimg.cc/abc"⟩ transientErr goodHtml
      "https://i.postimg.cc/x.jpg" ⟨"i.postimg.cc", "https://i.postimg.cc/x.jpg"⟩
      rfl (by decide) (by decide) (by decide) rfl rfl (by decide) (by decide)
      (by decide) (by decide) (by decide),
   retry_policy_amended.2.1 envC1b "https://postimg.cc/abc"
      ⟨"postimg.cc", "https://postimg.cc/abc"⟩ transientErr transientErr
      rfl (by decide) (by decide) (by decide) rfl rfl (by decide) (by decide)
      (by decide) (by decide)⟩

/-- C1 counterexample: the strict variant does not retry.  With a
transient non-cancellation first-fetch failure and a second attempt
that would succeed, the run performs exactly one fetch and answers the
generic 500 failure, not the 302 success the claim predicts for "either
variant". -/
theorem strict_no_retry_counterexample :
    strictGET envC1 =
      (Except.ok (Response.json 500 "Unexpected error fetching postimg"),
       [Effect.addAbortListener, Effect.setTimer 8000,
        Effect.fetchCall "https://postimg.cc/abc", Effect.clearTimer]) ∧
    countFetchCalls (strictGET envC1).2 = 1 ∧
    (strictGET envC1).1 ≠
      Except.ok (Response.redirect "https://i.postimg.cc/x.jpg" 302) := by
  exact ⟨by decide, by decide, by decide⟩

/-! ## Claim C2: the cancellation scope and the 8-second timeout -/

/-- C2 (corrected): only the strict variant establishes the 8-second
timeout.  After validation it registers the inbound-abort listener and
the 8000ms abort timer before its single outbound fetch and clears the
timer afterwards (all wired to the one `AbortController` whose signal
the fetch carries); the always-an-image variant never registers any
timer — its cancellation scope is tied to the inbound abort signal
alone. -/
theorem cancellation_scope_amended :
    (∀ (env : Env) (u : String) (parsed : UrlParts),
      env.urlParam = some u → u ≠ "" → env.parseUrl u = some parsed →
      parsed.hostname = "postimg.cc" → env.aborted = false →
      (strictGET env).2 = [Effect.addAbortListener, Effect.setTimer 8000,
        Effect.fetchCall parsed.norm, Effect.clearTimer])
    ∧ (∀ (env : Env) (ms : Nat), Effect.setTimer ms ∉ (alwaysGET env).2) := by
  constructor
  · intro env u parsed h1 h2 h3 h4 h5
    rw [strict_reach env u parsed h1 h2 h3 h4 h5]
  · exact fun env ms => alwaysGET_no_setTimer env ms

/-- C2 witness: on the same validated request the strict variant's
trace is listener-timer-fetch-clear while the always-an-image variant's
trace has no timer registration. -/
theorem cancellation_scope_amended_witness :
    (strictGET envC2).2 = [Effect.addAbortListener, Effect.setTimer 8000,
      Effect.fetchCall "https://postimg.cc/abc", Effect.clearTimer] ∧
    Effect.setTimer 8000 ∉ (alwaysGET envC2).2 :=
  ⟨cancellation_scope_amended.1 envC2 "https://postimg.cc/abc"
      ⟨"postimg.cc", "https://postimg.cc/abc"⟩ rfl (by decide) (by decide)
      (by decide) rfl,
   cancellation_scope_amended.2 envC2 8000⟩

/-- C2 counterexample: a full always-an-image pipeline run (validation
passed, fetch performed, result cached) registers no timer at all,
refuting "in both variants ... tied to ... an 8-second timeout"; the
strict variant's run on the same request does set the 8000ms timer. -/
theorem always_no_timeout_counterexample :
    (alwaysGET envC2).2 = [Effect.cacheGet "https://postimg.cc/abc",
      Effect.addAbortListener, Effect.fetchCall "https://postimg.cc/abc",
      Effect.cacheSet "https://postimg.cc/abc" ⟨"https://i.postimg.cc/x.jpg", 0⟩,
      Effect.removeAbortListener] ∧
    Effect.setTimer 8000 ∉ (alwaysGET envC2).2 ∧
    Effect.setTimer 8000 ∈ (strictGET envC2).2 := by
  exact ⟨by decide, by decide, by decide⟩

/-! ## Claim C5: the 24h cache -/

/-- C5 (corrected): a cache entry younger than 24h short-circuits to
the 302 redirect with no network call and no cache write, provided the
cached image URL passes redirect validation (for an invalid cached URL
the redirect constructor's error escapes instead — see the
counterexample); an entry aged 24h or more is ignored but not evicted:
the fetch pipeline runs, a successful resolution overwrites the entry
with the new image URL and the current clock reading (last successful
resolution wins), and a failed resolution leaves the stale entry in
place. -/
theorem cache_ttl_behavior :
    (∀ (env : Env) (u : String) (parsed : UrlParts) (c : CacheEntry) (p : UrlParts),
      env.urlParam = some u → u ≠ "" → env.parseUrl u = some parsed →
      parsed.hostname = "postimg.cc" → env.cache parsed.norm = some c →
      env.now0 - c.ts < CACHE_TTL_MS → env.parseUrl c.img = some p →
      alwaysGET env = (Except.ok (Response.redirect p.norm 302),
        [Effect.cacheGet parsed.norm]) ∧
      applyEffects env.cache (alwaysGET env).2 parsed.norm = some c)
    ∧ (∀ (env : Env) (u : String) (parsed : UrlParts) (c : CacheEntry)
        (html img : String) (p : UrlParts),
      env.urlParam = some u → u ≠ "" → env.parseUrl u = some parsed →
      parsed.hostname = "postimg.cc" → env.aborted = false →
      env.cache parsed.norm = some c → ¬ env.now0 - c.ts < CACHE_TTL_MS →
      env.fetches 0 = Except.ok ⟨true, Except.ok html⟩ →
      extractOgImage html = some img → env.parseUrl img = some p →
      alwaysGET env = (Except.ok (Response.redirect p.norm 302),
        [Effect.cacheGet parsed.norm, Effect.addAbortListener,
         Effect.fetchCall parsed.norm,
         Effect.cacheSet parsed.norm ⟨img, env.now1⟩,
         Effect.removeAbortListener]) ∧
      applyEffects env.cache (alwaysGET env).2 parsed.norm =
        some ⟨img, env.now1⟩)
    ∧ (∀ (env : Env) (u : String) (parsed : UrlParts) (c : CacheEntry)
        (t : Except JsError String),
      env.urlParam = some u → u ≠ "" → env.parseUrl u = some parsed →
      parsed.hostname = "postimg.cc" → env.aborted = false →
      env.cache parsed.norm = some c → ¬ env.now0 - c.ts < CACHE_TTL_MS →
      env.fetches 0 = Except.ok ⟨false, t⟩ →
      alwaysGET env = (Except.ok (imageFallbackResponse "Preview unavailable"),
        [Effect.cacheGet parsed.norm, Effect.addAbortListener,
         Effect.fetchCall parsed.norm, Effect.removeAbortListener]) ∧
      applyEffects env.cache (alwaysGET env).2 parsed.norm = some c) := by
  refine ⟨?_, ?_, ?_⟩
  · intro env u parsed c p h1 h2 h3 h4 h6 h7 hp
    have hEq : alwaysGET env =
        (Except.ok (Response.redirect p.norm 302), [Effect.cacheGet parsed.norm]) := by
      rw [always_reach_hit env u parsed c h1 h2 h3 h4 h6 h7,
        nextRedirect_ok 302 hp]
    exact ⟨hEq, by rw [hEq]; exact h6⟩
  · intro env u parsed c html img p h1 h2 h3 h4 h5 h6 h7 hf hext hp
    have hEq : alwaysGET env = (Except.ok (Response.redirect p.norm 302),
        [Effect.cacheGet parsed.norm, Effect.addAbortListener,
         Effect.fetchCall parsed.norm,
         Effect.cacheSet parsed.norm ⟨img, env.now1⟩,
         Effect.removeAbortListener]) := by
      rw [always_reach_stale env u parsed c h1 h2 h3 h4 h5 h6 h7,
        attempt0_ok_text env parsed.norm _ html hf,
        afterLoop_extract_some env parsed.norm html img _ hext,
        afterExtract_redirect_ok env parsed.norm img p _ hp]
      rfl
    refine ⟨hEq, ?_⟩
    rw [hEq]
    show applyEffects env.cache
      [Effect.cacheGet parsed.norm, Effect.addAbortListener,
       Effect.fetchCall parsed.norm,
       Effect.cacheSet parsed.norm ⟨img, env.now1⟩,
       Effect.removeAbortListener] parsed.norm = some ⟨img, env.now1⟩
    simp [applyEffects]
  · intro env u parsed c t h1 h2 h3 h4 h5 h6 h7 hf
    have hEq : alwaysGET env =
        (Except.ok (imageFallbackResponse "Preview unavailable"),
         [Effect.cacheGet parsed.norm, Effect.addAbortListener,
          Effect.fetchCall parsed.norm, Effect.removeAbortListener]) := by
      rw [always_reach_stale env u parsed c h1 h2 h3 h4 h5 h6 h7,
        attempt0_ok_notOk env parsed.norm _ t hf, afterLoop_none]
      rfl
    exact ⟨hEq, by rw [hEq]; exact h6⟩

/-- C5 witness: a fresh cache hit returns the cached redirect with only
a cache read in the trace and leaves the entry untouched; a stale entry
triggers a real fetch whose success overwrites it with the new
timestamp. -/
theorem cache_ttl_behavior_witness :
    (alwaysGET envC5 = (Except.ok (Response.redirect "https://i.postimg.cc/x.jpg" 302),
       [Effect.cacheGet "https://postimg.cc/abc"]) ∧
     applyEffects envC5.cache (alwaysGET envC5).2 "https://postimg.cc/abc" =
       some ⟨"https://i.postimg.cc/x.jpg", 0⟩) ∧
    (alwaysGET envC5stale =
       (Except.ok (Response.redirect "https://i.postimg.cc/x.jpg" 302),
        [Effect.cacheGet "https://postimg.cc/abc", Effect.addAbortListener,
         Effect.fetchCall "https://postimg.cc/abc",
         Effect.cacheSet "https://postimg.cc/abc"
           ⟨"https://i.postimg.cc/x.jpg", CACHE_TTL_MS + 5⟩,
         Effect.removeAbortListener]) ∧
     applyEffects envC5stale.cache (alwaysGET envC5stale).2 "https://postimg.cc/abc" =
       some ⟨"https://i.postimg.cc/x.jpg", CACHE_TTL_MS + 5⟩) :=
  ⟨cache_ttl_behavior.1 envC5 "https://postimg.cc/abc"
      ⟨"postimg.cc", "https://postimg.cc/abc"⟩ ⟨"https://i.postimg.cc/x.jpg", 0⟩
      ⟨"i.postimg.cc", "https://i.postimg.cc/x.jpg"⟩
      rfl (by decide) (by decide) (by decide) (by decide) (by decide) (by decide),
   cache_ttl_behavior.2.1 envC5stale "https://postimg.cc/abc"
      ⟨"postimg.cc", "https://postimg.cc/abc"⟩ ⟨"https://i.postimg.cc/x.jpg", 0⟩
      goodHtml "https://i.postimg.cc/x.jpg" ⟨"i.postimg.cc", "https://i.postimg.cc/x.jpg"⟩
      rfl (by decide) (by decide) (by decide) rfl (by decide) (by decide) (by decide)
      (by decide) (by decide)⟩

/-- C5 counterexample: a fresh cache entry whose stored image URL is
relative does not produce the claimed 302 redirect — the redirect
constructor's validation error escapes instead (still with no outbound
fetch). -/
theorem cache_hit_invalid_counterexample :
    (alwaysGET envC5bad).1 = Except.error (nextMalformedError "/x.png") ∧
    (alwaysGET envC5bad).1 ≠ Except.ok (Response.redirect "/x.png" 302) ∧
    hasFetchCall (alwaysGET envC5bad).2 = false := by
  exact ⟨by decide, by decide, by decide⟩

/-! ## Claim C8: no exception may escape the handler -/

/-- C8 (code bug): an exception can escape the always-an-image handler
on its cache-hit path.  First request: upstream markup carries the
relative og:image URL "/x.png"; the handler caches it (`cache.set` runs
before the redirect is constructed) and, because
`NextResponse.redirect("/x.png")` throws inside the try, answers
"Preview unavailable".  Second request for the same URL within 24h:
the fresh cache entry short-circuits to
`NextResponse.redirect(cached.img, 302)` outside the try/catch, whose
"URL is malformed" error propagates out of the handler unhandled
(`Except.error`), with no outbound call made. -/
theorem cache_hit_redirect_escapes :
    (alwaysGET envC8a).1 = Except.ok (imageFallbackResponse "Preview unavailable") ∧
    applyEffects envC8a.cache (alwaysGET envC8a).2 "https://postimg.cc/abc" =
      some ⟨"/x.png", 1000⟩ ∧
    envC8b.cache = applyEffects envC8a.cache (alwaysGET envC8a).2 ∧
    (alwaysGET envC8b).1 = Except.error (nextMalformedError "/x.png") ∧
    hasFetchCall (alwaysGET envC8b).2 = false := by
  exact ⟨by decide, by decide, rfl, by decide, by decide⟩

/-! ## Claim C10: cache lookup precedes the abort check -/

/-- C10 (corrected): the cache lookup happens before the inbound-abort
check, so a request that arrives already aborted but has a cache entry
younger than 24h never gets the "Image request cancelled" response: it
gets the 302 redirect when the cached URL passes redirect validation
(otherwise the redirect constructor's error escapes — see the
counterexample); and the cancelled response is only ever produced when
the request's key has no fresh cache entry. -/
theorem cache_before_abort_amended :
    (∀ (env : Env) (u : String) (parsed : UrlParts) (c : CacheEntry) (p : UrlParts),
      env.urlParam = some u → u ≠ "" → env.parseUrl u = some parsed →
      parsed.hostname = "postimg.cc" → env.aborted = true →
      env.cache parsed.norm = some c → env.now0 - c.ts < CACHE_TTL_MS →
      env.parseUrl c.img = some p →
      alwaysGET env = (Except.ok (Response.redirect p.norm 302),
        [Effect.cacheGet parsed.norm]))
    ∧ (∀ env : Env, (alwaysGET env).1 =
        Except.ok (imageFallbackResponse "Image request cancelled") →
        ∃ u parsed, env.urlParam = some u ∧ env.parseUrl u = some parsed ∧
          ∀ c, env.cache parsed.norm = some c →
            ¬ env.now0 - c.ts < CACHE_TTL_MS) := by
  constructor
  · intro env u parsed c p h1 h2 h3 h4 _h5 h6 h7 hp
    rw [always_reach_hit env u parsed c h1 h2 h3 h4 h6 h7, nextRedirect_ok 302 hp]
  · intro env h
    unfold alwaysGET at h
    split at h
    · exact absurd h (by decide)
    · rename_i url heq
      split at h
      · exact absurd h (by decide)
      · split at h
        · exact absurd h (by decide)
        · rename_i parsed hparse
          split at h
          · exact absurd h (by decide)
          · split at h
            · rename_i c hc
              split at h
              · cases hq : env.parseUrl c.img with
                | some p =>
                  rw [nextRedirect_ok 302 hq] at h
                  simp [imageFallbackResponse] at h
                | none =>
                  rw [nextRedirect_err 302 hq] at h
                  simp at h
              · rename_i hstale
                exact ⟨url, parsed, heq, hparse, fun c' hc' => by
                  rw [hc] at hc'
                  cases hc'
                  exact hstale⟩
            · rename_i hc
              exact ⟨url, parsed, heq, hparse, fun c' hc' => by
                rw [hc] at hc'
                cases hc'⟩

/-- C10 witness: an already-aborted request with a fresh, valid cache
entry gets the cached 302 redirect, not the cancelled placeholder. -/
theorem cache_before_abort_amended_witness :
    alwaysGET envC10 = (Except.ok (Response.redirect "https://i.postimg.cc/x.jpg" 302),
      [Effect.cacheGet "https://postimg.cc/abc"]) :=
  cache_before_abort_amended.1 envC10 "https://postimg.cc/abc"
    ⟨"postimg.cc", "https://postimg.cc/abc"⟩ ⟨"https://i.postimg.cc/x.jpg", 0⟩
    ⟨"i.postimg.cc", "https://i.postimg.cc/x.jpg"⟩
    rfl (by decide) (by decide) (by decide) rfl (by decide) (by decide) (by decide)

/-- C10 counterexample: an already-aborted request with a fresh cache
entry whose stored URL is relative returns neither the claimed 302
redirect nor the cancelled placeholder: the redirect validation error
escapes. -/
theorem aborted_cache_hit_counterexample :
    (alwaysGET envC10bad).1 = Except.error (nextMalformedError "/x.png") ∧
    (alwaysGET envC10bad).1 ≠ Except.ok (Response.redirect "/x.png" 302) ∧
    (alwaysGET envC10bad).1 ≠
      Except.ok (imageFallbackResponse "Image request cancelled") := by
  exact ⟨by decide, by decide, by decide⟩
